import Mathlib

/-!
Formal model of the `while-basic/celaya` multi-agent runtime.

This file is a shallow embedding, translated from the Python sources, of:
- `celaya_python/runtime/consensus.py` (proposal/vote tables, quorum detection),
- `celaya_python/runtime/ticker.py` (epoch ticker),
- `celaya-agents/orchestrator.py` (timeout recovery, leader election, ballots),
- `lyra_os/kernel/ledger.py` (consensus-CID computation, including SHA-256),
- `lyra_os/kernel/keyring.py` (signature verification control flow).

Python floats are modelled as rationals (`ℚ`); Python dicts as insertion-ordered
association lists; bus publications as returned event lists; wall-clock values
and uuid strings as explicit parameters.  Theorems about each component follow
the definitions.
-/

/-! ## Python dict model: insertion-ordered association lists -/

/-- Lookup in a Python dict modelled as an association list (`d.get(k)` / `k in d`). -/
def dictGet {α : Type} : List (String × α) → String → Option α
  | [], _ => none
  | (k', v) :: rest, k => if k' = k then some v else dictGet rest k

/-- Update `d[k] = v`: replaces in place when the key exists (Python dicts keep
the original position of an updated key), otherwise appends. -/
def dictSet {α : Type} : List (String × α) → String → α → List (String × α)
  | [], k, v => [(k, v)]
  | (k', v') :: rest, k, v => if k' = k then (k, v) :: rest else (k', v') :: dictSet rest k v

theorem dictGet_dictSet_self {α : Type} (d : List (String × α)) (k : String) (v : α) :
    dictGet (dictSet d k v) k = some v := by
  induction d with
  | nil => simp [dictGet, dictSet]
  | cons e rest ih =>
    by_cases h : e.1 = k
    · simp [dictSet, h, dictGet]
    · simp [dictSet, h, dictGet, ih]

theorem dictGet_dictSet_ne {α : Type} (d : List (String × α)) (k k' : String) (v : α)
    (h : k' ≠ k) : dictGet (dictSet d k v) k' = dictGet d k' := by
  induction d with
  | nil =>
    have : ¬ k = k' := fun hh => h hh.symm
    simp [dictGet, dictSet, this]
  | cons e rest ih =>
    by_cases he : e.1 = k
    · subst he
      have : ¬ e.1 = k' := fun hh => h hh.symm
      simp [dictSet, dictGet, this]
    · by_cases he' : e.1 = k'
      · simp [dictSet, he, dictGet, he', h]
      · simp [dictSet, he, dictGet, he', ih]

theorem mem_dictSet {α : Type} (d : List (String × α)) (k : String) (v : α) :
    ∀ e ∈ dictSet d k v, e = (k, v) ∨ e ∈ d := by
  induction d with
  | nil => simp [dictSet]
  | cons e' rest ih =>
    intro e he
    by_cases h : e'.1 = k
    · simp only [dictSet, if_pos h, List.mem_cons] at he
      rcases he with h1 | h2
      · exact Or.inl h1
      · exact Or.inr (List.mem_cons_of_mem _ h2)
    · simp only [dictSet, if_neg h, List.mem_cons] at he
      rcases he with h1 | h2
      · exact Or.inr (by simp [h1])
      · rcases ih e h2 with h3 | h4
        · exact Or.inl h3
        · exact Or.inr (List.mem_cons_of_mem _ h4)

theorem mem_keys_dictSet {α : Type} (d : List (String × α)) (k : String) (v : α) :
    ∀ a ∈ (dictSet d k v).map Prod.fst, a = k ∨ a ∈ d.map Prod.fst := by
  intro a ha
  rcases List.mem_map.mp ha with ⟨e, he, hfst⟩
  rcases mem_dictSet d k v e he with h1 | h2
  · left
    rw [← hfst, h1]
  · right
    exact List.mem_map.mpr ⟨e, h2, hfst⟩

theorem nodupKeys_dictSet {α : Type} (d : List (String × α)) (k : String) (v : α)
    (h : (d.map Prod.fst).Nodup) : ((dictSet d k v).map Prod.fst).Nodup := by
  induction d with
  | nil => simp [dictSet]
  | cons e rest ih =>
    rw [List.map_cons, List.nodup_cons] at h
    by_cases he : e.1 = k
    · rw [show dictSet (e :: rest) k v = (k, v) :: rest by simp [dictSet, he]]
      rw [List.map_cons, List.nodup_cons]
      exact ⟨he ▸ h.1, h.2⟩
    · rw [show dictSet (e :: rest) k v = e :: dictSet rest k v by simp [dictSet, he]]
      rw [List.map_cons, List.nodup_cons]
      refine ⟨fun hm => ?_, ih h.2⟩
      rcases mem_keys_dictSet rest k v e.1 hm with h1 | h2
      · exact he h1
      · exact h.1 h2

theorem dictGet_mem {α : Type} (d : List (String × α)) (k : String) (v : α)
    (h : dictGet d k = some v) : (k, v) ∈ d := by
  induction d with
  | nil => simp [dictGet] at h
  | cons e rest ih =>
    by_cases he : e.1 = k
    · rw [show dictGet (e :: rest) k = some e.2 by simp [dictGet, he]] at h
      have : e = (k, v) := by
        cases e
        simp_all
      rw [← this]
      exact List.mem_cons_self _ _
    · refine List.mem_cons_of_mem _ (ih ?_)
      rw [show dictGet (e :: rest) k = dictGet rest k by simp [dictGet, he]] at h
      exact h

/-! ## Consensus engine (`celaya_python/runtime/consensus.py`) -/

/-- Status of a consensus proposal (`ProposalStatus`). -/
inductive ProposalStatus
  | pending
  | voting
  | approved
  | rejected
  | expired
deriving DecidableEq, Repr

/-- Type of vote on a proposal (`VoteType`). -/
inductive VoteType
  | approve
  | reject
  | abstain
deriving DecidableEq, Repr

/-- A vote on a consensus proposal (dataclass `Vote`). -/
structure Vote where
  id : String
  proposal_id : String
  agent_id : String
  vote_type : VoteType
  timestamp : ℚ
  rationale : Option String
  signature : Option String
deriving DecidableEq, Repr

/-- A consensus proposal (dataclass `Proposal`).  `content` is opaque in the
source (`Any`) and is modelled as a string. -/
structure Proposal where
  id : String
  type : String
  proposer_id : String
  content : String
  status : ProposalStatus
  created_at : ℚ
  expires_at : Option ℚ
  metadata : List (String × String)
deriving DecidableEq, Repr

/-- Events the consensus manager publishes on the bus (the `*Event` dataclasses).
Only the payload fields that distinguish events are kept; timestamps are
irrelevant to the properties below. -/
inductive ConsensusEvent
  | proposalCreated (pid : String) (p : Proposal)
  | voteReceived (v : Vote)
  | statusChanged (pid : String) (oldStatus newStatus : ProposalStatus)
  | quorumReached (pid : String) (result : VoteType) (votes : List Vote)
deriving DecidableEq, Repr

/-- Mutable state of `ConsensusManager`: quorum threshold, proposal table,
vote table (`proposal_id -> agent_id -> vote`) and agent weight table. -/
structure ConsensusState where
  quorum_threshold : ℚ
  proposals : List (String × Proposal)
  votes : List (String × List (String × Vote))
  agent_weights : List (String × ℚ)
deriving DecidableEq, Repr

/-- A message delivered from the bus (`bus.Message`).  A payload that is not a
dict is modelled as `none`; a dict payload carries every field any consensus
handler may `.get`, each `Option`-valued because Python `.get` returns `None`
for absent keys. -/
structure MsgDict where
  proposal_id : Option String := none
  agent_id : Option String := none
  vote_type : Option String := none
  rationale : Option String := none
  signature : Option String := none
  id : Option String := none
  type : Option String := none
  proposer_id : Option String := none
  content : Option String := none
  status : Option String := none
  created_at : Option ℚ := none
  expires_at : Option ℚ := none
  metadata : List (String × String) := []
deriving DecidableEq, Repr

structure Message where
  topic : String
  payload : Option MsgDict
  sender_id : Option String
deriving DecidableEq, Repr

/-- Python truthiness for an optional string: `None` and `""` are falsy. -/
def truthy : Option String → Bool
  | none => false
  | some s => !(s = "")

/-- Python `a or b` on optional strings (`vote_data.get("agent_id") or message.sender_id`). -/
def pyOr (a b : Option String) : Option String :=
  if truthy a then a else b

/-- `VoteType(s)`: parse a vote-type string; `none` models the `ValueError`. -/
def parseVoteType (s : String) : Option VoteType :=
  if s = "approve" then some .approve
  else if s = "reject" then some .reject
  else if s = "abstain" then some .abstain
  else none

/-- `ProposalStatus(s)`: parse a status string; `none` models the `ValueError`. -/
def parseStatus (s : String) : Option ProposalStatus :=
  if s = "pending" then some .pending
  else if s = "voting" then some .voting
  else if s = "approved" then some .approved
  else if s = "rejected" then some .rejected
  else if s = "expired" then some .expired
  else none

/-- Weight of an agent's vote: the weight table with default 1.0
(`self.agent_weights.get(agent_id, 1.0)`). -/
def weightOf (w : List (String × ℚ)) (agent : String) : ℚ :=
  (dictGet w agent).getD 1

/-- `total_weight` accumulated by `_check_consensus` over the cast votes. -/
def totalWeight (w : List (String × ℚ)) (votes : List Vote) : ℚ :=
  (votes.map (fun v => weightOf w v.agent_id)).sum

/-- `approve_weight`: sum of weights of APPROVE voters. -/
def approveWeight (w : List (String × ℚ)) (votes : List Vote) : ℚ :=
  ((votes.filter (fun v => v.vote_type = VoteType.approve)).map (fun v => weightOf w v.agent_id)).sum

/-- `reject_weight`: sum of weights of REJECT voters. -/
def rejectWeight (w : List (String × ℚ)) (votes : List Vote) : ℚ :=
  ((votes.filter (fun v => v.vote_type = VoteType.reject)).map (fun v => weightOf w v.agent_id)).sum

/-- `ConsensusManager._update_proposal_status`: update a proposal's status,
emitting a `status_changed` event; no-op when the proposal is unknown or the
status is unchanged. -/
def updateProposalStatus (st : ConsensusState) (pid : String) (newStatus : ProposalStatus) :
    ConsensusState × List ConsensusEvent :=
  match dictGet st.proposals pid with
  | none => (st, [])
  | some p =>
    if p.status = newStatus then (st, [])
    else
      ({ st with proposals := dictSet st.proposals pid { p with status := newStatus } },
       [.statusChanged pid p.status newStatus])

/-- `ConsensusManager._check_consensus`: recompute the weighted quorum for a
proposal from the cast votes and transition it when a threshold is met.  The
returned list is what the manager publishes on the bus during the check. -/
def checkConsensus (st : ConsensusState) (pid : String) : ConsensusState × List ConsensusEvent :=
  match dictGet st.proposals pid, dictGet st.votes pid with
  | some _, some vt =>
    let votes := vt.map Prod.snd
    if votes = [] then (st, [])
    else
      let tw := totalWeight st.agent_weights votes
      if tw = 0 then (st, [])
      else if approveWeight st.agent_weights votes / tw ≥ st.quorum_threshold then
        let r := updateProposalStatus st pid .approved
        (r.1, r.2 ++ [.quorumReached pid .approve votes])
      else if rejectWeight st.agent_weights votes / tw ≥ st.quorum_threshold then
        let r := updateProposalStatus st pid .rejected
        (r.1, r.2 ++ [.quorumReached pid .reject votes])
      else (st, [])
  | _, _ => (st, [])

/-- `ConsensusManager._handle_vote`: validate a vote message, store the vote
(replacing any earlier vote by the same agent) and re-check consensus.  `now`
models `time.time()` and `voteId` the fresh `uuid4` string.  Every
early-return branch mirrors a validation `return` in the source; the final
`none` branch mirrors the `KeyError` swallowed by the handler's
`except Exception`. -/
def handleVote (st : ConsensusState) (msg : Message) (now : ℚ) (voteId : String) :
    ConsensusState × List ConsensusEvent :=
  match msg.payload with
  | none => (st, [])
  | some d =>
    match d.proposal_id, pyOr d.agent_id msg.sender_id, d.vote_type with
    | some pid, some agent, some vts =>
      if pid = "" ∨ agent = "" ∨ vts = "" then (st, [])
      else
        match dictGet st.proposals pid with
        | none => (st, [])
        | some p =>
          if p.status ≠ ProposalStatus.voting then (st, [])
          else
            match parseVoteType vts with
            | none => (st, [])
            | some vt =>
              match dictGet st.votes pid with
              | none => (st, [])
              | some tbl =>
                let v : Vote :=
                  { id := voteId, proposal_id := pid, agent_id := agent, vote_type := vt,
                    timestamp := now, rationale := d.rationale, signature := d.signature }
                let st1 := { st with votes := dictSet st.votes pid (dictSet tbl agent v) }
                let r := checkConsensus st1 pid
                (r.1, .voteReceived v :: r.2)
    | _, _, _ => (st, [])

/-- `ConsensusManager._handle_proposal`: build a proposal from a dict payload
(`Proposal.from_dict`), store it, reset its vote table, emit
`proposal_created`, then move it to VOTING.  A non-dict payload, a missing
required field (`TypeError` from `cls(**data)`) or an invalid status string
(`ValueError`) is swallowed by the handler's `except` with no state change. -/
def handleProposal (st : ConsensusState) (msg : Message) (now : ℚ) :
    ConsensusState × List ConsensusEvent :=
  match msg.payload with
  | none => (st, [])
  | some d =>
    match d.id, d.type, d.proposer_id, d.content with
    | some pid, some ptype, some proposerId, some content =>
      match (match d.status with | none => some ProposalStatus.pending | some s => parseStatus s) with
      | none => (st, [])
      | some status =>
        let p : Proposal :=
          { id := pid, type := ptype, proposer_id := proposerId, content := content,
            status := status, created_at := (d.created_at).getD now,
            expires_at := d.expires_at, metadata := d.metadata }
        let st1 := { st with proposals := dictSet st.proposals pid p,
                             votes := dictSet st.votes pid [] }
        let r := updateProposalStatus st1 pid .voting
        (r.1, .proposalCreated pid p :: r.2)
    | _, _, _, _ => (st, [])

/-- Processing of a stream of vote messages by the manager's loop, each with
its wall-clock time and fresh vote id. -/
def processVotes : ConsensusState → List (Message × ℚ × String) →
    ConsensusState × List ConsensusEvent
  | st, [] => (st, [])
  | st, (m, t, i) :: rest =>
    let r := handleVote st m t i
    let r' := processVotes r.1 rest
    (r'.1, r.2 ++ r'.2)

/-! ## Weight arithmetic lemmas -/

theorem weightOf_nonneg (w : List (String × ℚ)) (hw : ∀ e ∈ w, 0 ≤ e.2) (a : String) :
    0 ≤ weightOf w a := by
  unfold weightOf
  cases h : dictGet w a with
  | none => simp
  | some q => simpa using hw (a, q) (dictGet_mem w a q h)

theorem totalWeight_nonneg (w : List (String × ℚ)) (votes : List Vote)
    (hw : ∀ e ∈ w, 0 ≤ e.2) : 0 ≤ totalWeight w votes := by
  unfold totalWeight
  apply List.sum_nonneg
  intro x hx
  rcases List.mem_map.mp hx with ⟨v, _, hv⟩
  exact hv ▸ weightOf_nonneg w hw v.agent_id

theorem totalWeight_cons (w : List (String × ℚ)) (v : Vote) (votes : List Vote) :
    totalWeight w (v :: votes) = weightOf w v.agent_id + totalWeight w votes := by
  simp [totalWeight]

theorem approveWeight_cons (w : List (String × ℚ)) (v : Vote) (votes : List Vote) :
    approveWeight w (v :: votes) =
      (if v.vote_type = VoteType.approve then weightOf w v.agent_id else 0) +
        approveWeight w votes := by
  by_cases h : v.vote_type = VoteType.approve <;>
    simp [approveWeight, List.filter_cons, h]

theorem rejectWeight_cons (w : List (String × ℚ)) (v : Vote) (votes : List Vote) :
    rejectWeight w (v :: votes) =
      (if v.vote_type = VoteType.reject then weightOf w v.agent_id else 0) +
        rejectWeight w votes := by
  by_cases h : v.vote_type = VoteType.reject <;>
    simp [rejectWeight, List.filter_cons, h]

theorem approve_add_reject_le_total (w : List (String × ℚ)) (votes : List Vote)
    (hw : ∀ e ∈ w, 0 ≤ e.2) :
    approveWeight w votes + rejectWeight w votes ≤ totalWeight w votes := by
  induction votes with
  | nil => simp [approveWeight, rejectWeight, totalWeight]
  | cons v rest ih =>
    rw [approveWeight_cons, rejectWeight_cons, totalWeight_cons]
    have hnn := weightOf_nonneg w hw v.agent_id
    cases hvt : v.vote_type <;> simp [hvt] <;> linarith

theorem approveWeight_nonneg (w : List (String × ℚ)) (votes : List Vote)
    (hw : ∀ e ∈ w, 0 ≤ e.2) : 0 ≤ approveWeight w votes := by
  unfold approveWeight
  apply List.sum_nonneg
  intro x hx
  rcases List.mem_map.mp hx with ⟨v, _, hv⟩
  exact hv ▸ weightOf_nonneg w hw v.agent_id

theorem rejectWeight_nonneg (w : List (String × ℚ)) (votes : List Vote)
    (hw : ∀ e ∈ w, 0 ≤ e.2) : 0 ≤ rejectWeight w votes := by
  unfold rejectWeight
  apply List.sum_nonneg
  intro x hx
  rcases List.mem_map.mp hx with ⟨v, _, hv⟩
  exact hv ▸ weightOf_nonneg w hw v.agent_id

/-! ## Claim C1: weighted quorum -/

/-- The weighted-quorum property claimed by the specification, stated for the
engine state `st`, a proposal id `pid` and the list `votes` of cast votes:
APPROVED plus `quorum_reached(APPROVE)` exactly when `totalWeight > 0` and
`approveWeight / totalWeight ≥ Q`; REJECTED plus `quorum_reached(REJECT)`
exactly when `rejectWeight / totalWeight ≥ Q`; otherwise the check changes
nothing and the proposal remains VOTING; never both events. -/
def quorumClaim (st : ConsensusState) (pid : String) (votes : List Vote) : Prop :=
  (((dictGet (checkConsensus st pid).1.proposals pid).map Proposal.status =
        some ProposalStatus.approved ∧
      ConsensusEvent.quorumReached pid VoteType.approve votes ∈ (checkConsensus st pid).2) ↔
    (0 < totalWeight st.agent_weights votes ∧
      approveWeight st.agent_weights votes / totalWeight st.agent_weights votes ≥
        st.quorum_threshold)) ∧
  (((dictGet (checkConsensus st pid).1.proposals pid).map Proposal.status =
        some ProposalStatus.rejected ∧
      ConsensusEvent.quorumReached pid VoteType.reject votes ∈ (checkConsensus st pid).2) ↔
    rejectWeight st.agent_weights votes / totalWeight st.agent_weights votes ≥
      st.quorum_threshold) ∧
  ((¬ (0 < totalWeight st.agent_weights votes ∧
        approveWeight st.agent_weights votes / totalWeight st.agent_weights votes ≥
          st.quorum_threshold) ∧
     ¬ (rejectWeight st.agent_weights votes / totalWeight st.agent_weights votes ≥
          st.quorum_threshold)) →
    checkConsensus st pid = (st, []) ∧
      (dictGet (checkConsensus st pid).1.proposals pid).map Proposal.status =
        some ProposalStatus.voting) ∧
  ¬ (ConsensusEvent.quorumReached pid VoteType.approve votes ∈ (checkConsensus st pid).2 ∧
     ConsensusEvent.quorumReached pid VoteType.reject votes ∈ (checkConsensus st pid).2)

/-- Branch lemma: a successful APPROVE quorum check. -/
theorem checkConsensus_approve_branch (st : ConsensusState) (pid : String) (p : Proposal)
    (vt : List (String × Vote))
    (hp : dictGet st.proposals pid = some p)
    (hv : dictGet st.votes pid = some vt)
    (hnil : ¬ (vt.map Prod.snd = []))
    (htwz : ¬ (totalWeight st.agent_weights (vt.map Prod.snd) = 0))
    (happ : approveWeight st.agent_weights (vt.map Prod.snd) /
        totalWeight st.agent_weights (vt.map Prod.snd) ≥ st.quorum_threshold)
    (hstat : p.status = ProposalStatus.voting) :
    checkConsensus st pid =
      ({ st with proposals := dictSet st.proposals pid { p with status := ProposalStatus.approved } },
       [ConsensusEvent.statusChanged pid ProposalStatus.voting ProposalStatus.approved,
        ConsensusEvent.quorumReached pid VoteType.approve (vt.map Prod.snd)]) := by
  simp only [checkConsensus, hp, hv, updateProposalStatus]
  rw [if_neg hnil, if_neg htwz, if_pos happ, if_neg (by rw [hstat]; simp), hstat]
  rfl

/-- Branch lemma: a successful REJECT quorum check. -/
theorem checkConsensus_reject_branch (st : ConsensusState) (pid : String) (p : Proposal)
    (vt : List (String × Vote))
    (hp : dictGet st.proposals pid = some p)
    (hv : dictGet st.votes pid = some vt)
    (hnil : ¬ (vt.map Prod.snd = []))
    (htwz : ¬ (totalWeight st.agent_weights (vt.map Prod.snd) = 0))
    (happ : ¬ (approveWeight st.agent_weights (vt.map Prod.snd) /
        totalWeight st.agent_weights (vt.map Prod.snd) ≥ st.quorum_threshold))
    (hrej : rejectWeight st.agent_weights (vt.map Prod.snd) /
        totalWeight st.agent_weights (vt.map Prod.snd) ≥ st.quorum_threshold)
    (hstat : p.status = ProposalStatus.voting) :
    checkConsensus st pid =
      ({ st with proposals := dictSet st.proposals pid { p with status := ProposalStatus.rejected } },
       [ConsensusEvent.statusChanged pid ProposalStatus.voting ProposalStatus.rejected,
        ConsensusEvent.quorumReached pid VoteType.reject (vt.map Prod.snd)]) := by
  simp only [checkConsensus, hp, hv, updateProposalStatus]
  rw [if_neg hnil, if_neg htwz, if_neg happ, if_pos hrej, if_neg (by rw [hstat]; simp), hstat]
  rfl

/-- Branch lemma: a check that meets no threshold changes nothing. -/
theorem checkConsensus_none_branch (st : ConsensusState) (pid : String) (p : Proposal)
    (vt : List (String × Vote))
    (hp : dictGet st.proposals pid = some p)
    (hv : dictGet st.votes pid = some vt)
    (happ : ¬ (approveWeight st.agent_weights (vt.map Prod.snd) /
        totalWeight st.agent_weights (vt.map Prod.snd) ≥ st.quorum_threshold))
    (hrej : ¬ (rejectWeight st.agent_weights (vt.map Prod.snd) /
        totalWeight st.agent_weights (vt.map Prod.snd) ≥ st.quorum_threshold)) :
    checkConsensus st pid = (st, []) := by
  simp only [checkConsensus, hp, hv]
  by_cases hnil : vt.map Prod.snd = []
  · rw [if_pos hnil]
  · rw [if_neg hnil]
    by_cases htwz : totalWeight st.agent_weights (vt.map Prod.snd) = 0
    · rw [if_pos htwz]
    · rw [if_neg htwz, if_neg happ, if_neg hrej]

/-- C1.  Weighted quorum: for every proposal in VOTING and every vote table,
with weights from the engine's weight table (default 1.0) and `totalWeight`
summed over the cast votes, `_check_consensus` approves and emits
`quorum_reached(APPROVE)` iff `totalWeight > 0` and
`approveWeight / totalWeight ≥ Q`; rejects and emits `quorum_reached(REJECT)`
iff `rejectWeight / totalWeight ≥ Q`; otherwise leaves the proposal VOTING;
and never emits both events.  Weights are nonnegative (`set_agent_weight`
clamps to [0, 1]) and `Q > 1/2` (default 0.66). -/
theorem weighted_quorum_correct (st : ConsensusState) (pid : String) (p : Proposal)
    (vt : List (String × Vote))
    (hp : dictGet st.proposals pid = some p)
    (hstat : p.status = ProposalStatus.voting)
    (hv : dictGet st.votes pid = some vt)
    (hw : ∀ e ∈ st.agent_weights, 0 ≤ e.2)
    (hq : 1 / 2 < st.quorum_threshold) :
    quorumClaim st pid (vt.map Prod.snd) := by
  have hq0 : 0 < st.quorum_threshold := lt_trans (by norm_num) hq
  have htw0 : 0 ≤ totalWeight st.agent_weights (vt.map Prod.snd) :=
    totalWeight_nonneg _ _ hw
  have haw0 : 0 ≤ approveWeight st.agent_weights (vt.map Prod.snd) :=
    approveWeight_nonneg _ _ hw
  have hrw0 : 0 ≤ rejectWeight st.agent_weights (vt.map Prod.snd) :=
    rejectWeight_nonneg _ _ hw
  have hart : approveWeight st.agent_weights (vt.map Prod.snd) +
      rejectWeight st.agent_weights (vt.map Prod.snd) ≤
      totalWeight st.agent_weights (vt.map Prod.snd) :=
    approve_add_reject_le_total _ _ hw
  by_cases htwz : totalWeight st.agent_weights (vt.map Prod.snd) = 0
  -- degenerate case: zero total weight (no votes, or all weights zero)
  · have haz : approveWeight st.agent_weights (vt.map Prod.snd) = 0 :=
      le_antisymm (by linarith) haw0
    have hrz : rejectWeight st.agent_weights (vt.map Prod.snd) = 0 :=
      le_antisymm (by linarith) hrw0
    have happ : ¬ (approveWeight st.agent_weights (vt.map Prod.snd) /
        totalWeight st.agent_weights (vt.map Prod.snd) ≥ st.quorum_threshold) := by
      rw [haz, htwz]
      simp only [ge_iff_le, not_le, zero_div]
      exact hq0
    have hrej : ¬ (rejectWeight st.agent_weights (vt.map Prod.snd) /
        totalWeight st.agent_weights (vt.map Prod.snd) ≥ st.quorum_threshold) := by
      rw [hrz, htwz]
      simp only [ge_iff_le, not_le, zero_div]
      exact hq0
    have hcc := checkConsensus_none_branch st pid p vt hp hv happ hrej
    refine ⟨?_, ?_, ?_, ?_⟩
    · refine iff_of_false ?_ ?_
      · rw [hcc]
        simp [hp, hstat]
      · intro hcond
        exact absurd hcond.1 (by rw [htwz]; simp)
    · refine iff_of_false ?_ hrej
      rw [hcc]
      simp [hp, hstat]
    · intro _
      rw [hcc]
      simp [hp, hstat]
    · rw [hcc]
      simp
  · have htw : 0 < totalWeight st.agent_weights (vt.map Prod.snd) :=
      lt_of_le_of_ne htw0 (Ne.symm htwz)
    have hnil : ¬ (vt.map Prod.snd = []) := by
      intro hcon
      apply htwz
      rw [hcon]
      simp [totalWeight]
    by_cases happ : approveWeight st.agent_weights (vt.map Prod.snd) /
        totalWeight st.agent_weights (vt.map Prod.snd) ≥ st.quorum_threshold
    · have hcc := checkConsensus_approve_branch st pid p vt hp hv hnil htwz happ hstat
      have hrej_lt : rejectWeight st.agent_weights (vt.map Prod.snd) /
          totalWeight st.agent_weights (vt.map Prod.snd) < st.quorum_threshold := by
        have h1 : approveWeight st.agent_weights (vt.map Prod.snd) /
            totalWeight st.agent_weights (vt.map Prod.snd) +
            rejectWeight st.agent_weights (vt.map Prod.snd) /
            totalWeight st.agent_weights (vt.map Prod.snd) ≤ 1 := by
          rw [div_add_div_same, div_le_one htw]
          exact hart
        have h2 := ge_iff_le.mp happ
        linarith
      refine ⟨?_, ?_, ?_, ?_⟩
      · refine iff_of_true ?_ ⟨htw, happ⟩
        rw [hcc]
        simp [dictGet_dictSet_self]
      · refine iff_of_false ?_ (not_le.mpr hrej_lt)
        rw [hcc]
        simp [dictGet_dictSet_self]
      · intro hcond
        exact absurd ⟨htw, happ⟩ hcond.1
      · rw [hcc]
        intro hcon
        simp at hcon
    · by_cases hrej : rejectWeight st.agent_weights (vt.map Prod.snd) /
          totalWeight st.agent_weights (vt.map Prod.snd) ≥ st.quorum_threshold
      · have hcc := checkConsensus_reject_branch st pid p vt hp hv hnil htwz happ hrej hstat
        refine ⟨?_, ?_, ?_, ?_⟩
        · refine iff_of_false ?_ (fun hcond => happ hcond.2)
          rw [hcc]
          simp [dictGet_dictSet_self]
        · refine iff_of_true ?_ hrej
          rw [hcc]
          simp [dictGet_dictSet_self]
        · intro hcond
          exact absurd hrej hcond.2
        · rw [hcc]
          intro hcon
          simp at hcon
      · have hcc := checkConsensus_none_branch st pid p vt hp hv happ hrej
        refine ⟨?_, ?_, ?_, ?_⟩
        · refine iff_of_false ?_ (fun hcond => happ hcond.2)
          rw [hcc]
          simp [hp, hstat]
        · refine iff_of_false ?_ hrej
          rw [hcc]
          simp [hp, hstat]
        · intro _
          rw [hcc]
          simp [hp, hstat]
        · rw [hcc]
          simp

/-- Default quorum threshold 0.66 lies above one half. -/
theorem half_lt_default_quorum : (1 : ℚ) / 2 < 33 / 50 := by norm_num

/-- Concrete VOTING proposal used by witnesses. -/
def pW : Proposal :=
  { id := "p", type := "boot", proposer_id := "a1", content := "c",
    status := ProposalStatus.voting, created_at := 0, expires_at := none, metadata := [] }

/-- Concrete APPROVE vote used by witnesses. -/
def vW : Vote :=
  { id := "v1", proposal_id := "p", agent_id := "a1", vote_type := VoteType.approve,
    timestamp := 1, rationale := none, signature := none }

/-- Concrete engine state used by the C1 witness: default threshold, one VOTING
proposal, one cast APPROVE vote, empty weight table. -/
def stW : ConsensusState :=
  { quorum_threshold := 33 / 50,
    proposals := [("p", pW)],
    votes := [("p", [("a1", vW)])],
    agent_weights := [] }

/-- Witness for C1 at a concrete input. -/
theorem weighted_quorum_correct_witness :
    dictGet stW.proposals "p" = some pW ∧
    pW.status = ProposalStatus.voting ∧
    dictGet stW.votes "p" = some [("a1", vW)] ∧
    (∀ e ∈ stW.agent_weights, 0 ≤ e.2) ∧
    (1 : ℚ) / 2 < stW.quorum_threshold ∧
    quorumClaim stW "p" ([("a1", vW)].map Prod.snd) :=
  ⟨rfl, rfl, rfl, by simp [stW], half_lt_default_quorum,
   weighted_quorum_correct stW "p" pW [("a1", vW)] rfl rfl rfl (by simp [stW])
     half_lt_default_quorum⟩

/-! ## Claim C4: protocol violations are discarded without state change -/

/-- The vote message is malformed: its payload is not a dict, or a required
field (`proposal_id`, resolved agent id, `vote_type`) is missing or empty
(Python truthiness). -/
def voteMalformed (m : Message) : Bool :=
  match m.payload with
  | none => true
  | some d => !(truthy d.proposal_id && truthy (pyOr d.agent_id m.sender_id) && truthy d.vote_type)

/-- The vote message names a proposal id that is not in the proposal table. -/
def voteUnknownProposal (st : ConsensusState) (m : Message) : Bool :=
  match m.payload with
  | none => false
  | some d =>
    match d.proposal_id with
    | none => false
    | some pid => (dictGet st.proposals pid).isNone

/-- The vote message names a proposal whose status is not VOTING. -/
def voteNonVoting (st : ConsensusState) (m : Message) : Bool :=
  match m.payload with
  | none => false
  | some d =>
    match d.proposal_id with
    | none => false
    | some pid =>
      match dictGet st.proposals pid with
      | none => false
      | some p => p.status ≠ ProposalStatus.voting

/-- The vote message carries a vote-type string that `VoteType(...)` rejects. -/
def voteInvalidType (m : Message) : Bool :=
  match m.payload with
  | none => false
  | some d =>
    match d.vote_type with
    | none => false
    | some s => (parseVoteType s).isNone

/-- Helper: `_handle_vote` discards a violating message with no state change. -/
theorem handleVote_discards (st : ConsensusState) (m : Message) (now : ℚ) (vid : String)
    (h : voteMalformed m = true ∨ voteUnknownProposal st m = true ∨
      voteNonVoting st m = true ∨ voteInvalidType m = true) :
    handleVote st m now vid = (st, []) := by
  unfold handleVote
  cases hpl : m.payload with
  | none => rfl
  | some d =>
    simp only []
    cases hpid : d.proposal_id with
    | none => rfl
    | some pid =>
      cases hag : pyOr d.agent_id m.sender_id with
      | none => rfl
      | some agent =>
        cases hvt : d.vote_type with
        | none => rfl
        | some vts =>
          dsimp only
          by_cases hempty : pid = "" ∨ agent = "" ∨ vts = ""
          · rw [if_pos hempty]
          · rw [if_neg hempty]
            push_neg at hempty
            have hm : voteMalformed m = false := by
              simp [voteMalformed, hpl, hpid, hag, hvt, truthy, hempty.1, hempty.2.1,
                hempty.2.2]
            cases hprop : dictGet st.proposals pid with
            | none => rfl
            | some p =>
              dsimp only
              have hu : voteUnknownProposal st m = false := by
                simp [voteUnknownProposal, hpl, hpid, hprop]
              by_cases hstat : p.status ≠ ProposalStatus.voting
              · rw [if_pos hstat]
              · rw [if_neg hstat]
                have hnv : voteNonVoting st m = false := by
                  simp only [voteNonVoting, hpl, hpid, hprop]
                  simpa using hstat
                cases hparse : parseVoteType vts with
                | none => rfl
                | some vt =>
                  have hit : voteInvalidType m = false := by
                    simp [voteInvalidType, hpl, hvt, hparse]
                  rw [hm] at h
                  rw [hu] at h
                  rw [hnv] at h
                  rw [hit] at h
                  simp at h

/-- C4.  Protocol-violation atomicity: a vote message that is malformed, names
an unknown proposal, names a non-VOTING proposal, or carries an invalid vote
type is discarded by `_handle_vote`: the engine state is unchanged and no
event is emitted. -/
theorem protocol_violation_atomic (st : ConsensusState) (m : Message) (now : ℚ) (vid : String)
    (h : voteMalformed m = true ∨ voteUnknownProposal st m = true ∨
      voteNonVoting st m = true ∨ voteInvalidType m = true) :
    handleVote st m now vid = (st, []) :=
  handleVote_discards st m now vid h

/-- Concrete malformed vote message (payload is not a dict). -/
def mW : Message := { topic := "consensus.vote", payload := none, sender_id := some "a1" }

/-- Witness for C4 at a concrete input. -/
theorem protocol_violation_atomic_witness :
    (voteMalformed mW = true ∨ voteUnknownProposal stW mW = true ∨
      voteNonVoting stW mW = true ∨ voteInvalidType mW = true) ∧
    handleVote stW mW 0 "vx" = (stW, []) :=
  ⟨Or.inl rfl, protocol_violation_atomic stW mW 0 "vx" (Or.inl rfl)⟩

/-! ## Claim C5: proposal expiry -/

/-- A VOTING proposal whose `expires_at` (100) has already passed. -/
def pExpired : Proposal :=
  { id := "p", type := "boot", proposer_id := "a1", content := "c",
    status := ProposalStatus.voting, created_at := 0, expires_at := some 100, metadata := [] }

/-- An ABSTAIN vote cast at time 200, after the proposal's expiry. -/
def vAbstain : Vote :=
  { id := "v2", proposal_id := "p", agent_id := "a1", vote_type := VoteType.abstain,
    timestamp := 200, rationale := none, signature := none }

/-- Engine state holding the expired proposal with one quorum-less vote. -/
def stExp : ConsensusState :=
  { quorum_threshold := 33 / 50,
    proposals := [("p", pExpired)],
    votes := [("p", [("a1", vAbstain)])],
    agent_weights := [] }

/-- C5 (failing input).  The proposal's `expires_at` (100) lies before the
vote timestamp (200), quorum is not reached, yet `_check_consensus` — the
engine's only per-vote check, which never reads `expires_at` and takes no
clock at all — leaves the proposal VOTING and emits nothing; no code path in
the engine ever assigns EXPIRED. -/
theorem expiry_never_applied :
    checkConsensus stExp "p" = (stExp, []) ∧
    (dictGet (checkConsensus stExp "p").1.proposals "p").map Proposal.status =
      some ProposalStatus.voting ∧
    pExpired.expires_at = some 100 ∧
    (100 : ℚ) < vAbstain.timestamp := by
  have hta : totalWeight stExp.agent_weights ([("a1", vAbstain)].map Prod.snd) = 1 := by
    simp [totalWeight, weightOf, dictGet, stExp, vAbstain]
  have haa : approveWeight stExp.agent_weights ([("a1", vAbstain)].map Prod.snd) = 0 := by
    simp only [List.map_cons, List.map_nil, approveWeight, List.filter_cons, List.filter_nil]
    rw [if_neg (by decide : ¬ (decide (vAbstain.vote_type = VoteType.approve) = true))]
    simp
  have hra : rejectWeight stExp.agent_weights ([("a1", vAbstain)].map Prod.snd) = 0 := by
    simp only [List.map_cons, List.map_nil, rejectWeight, List.filter_cons, List.filter_nil]
    rw [if_neg (by decide : ¬ (decide (vAbstain.vote_type = VoteType.reject) = true))]
    simp
  have happ : ¬ (approveWeight stExp.agent_weights ([("a1", vAbstain)].map Prod.snd) /
      totalWeight stExp.agent_weights ([("a1", vAbstain)].map Prod.snd) ≥
      stExp.quorum_threshold) := by
    rw [haa, hta]
    norm_num [stExp]
  have hrej : ¬ (rejectWeight stExp.agent_weights ([("a1", vAbstain)].map Prod.snd) /
      totalWeight stExp.agent_weights ([("a1", vAbstain)].map Prod.snd) ≥
      stExp.quorum_threshold) := by
    rw [hra, hta]
    norm_num [stExp]
  have hcc := checkConsensus_none_branch stExp "p" pExpired [("a1", vAbstain)] rfl rfl happ hrej
  refine ⟨hcc, ?_, rfl, by norm_num [vAbstain]⟩
  rw [hcc]
  rfl

/-! ## Claim C3: vote replacement -/

/-- The votes for `(pid, agent)` that the engine actually accepted and stored,
read off the emitted event stream (`vote_received` is published exactly when
a vote is stored). -/
def storedFor (pid agent : String) (evs : List ConsensusEvent) : List Vote :=
  evs.filterMap (fun e =>
    match e with
    | .voteReceived v => if v.proposal_id = pid ∧ v.agent_id = agent then some v else none
    | _ => none)

/-- Well-formedness of one per-proposal vote table: distinct agent keys, and
each stored vote's `agent_id` equals its key (both hold by construction, the
table being keyed by the voter in `_handle_vote`). -/
def innerWF (tbl : List (String × Vote)) : Prop :=
  (tbl.map Prod.fst).Nodup ∧ ∀ e ∈ tbl, e.2.agent_id = e.1

/-- Well-formedness of the engine's whole vote table. -/
def votesWF (st : ConsensusState) : Prop :=
  ∀ p tbl, dictGet st.votes p = some tbl → innerWF tbl

/-- The engine's record for `(pid, agent)`: the stored vote under that key and
the list of that agent's votes as counted by `_check_consensus`. -/
def agentView (st : ConsensusState) (pid agent : String) : Option (Option Vote × List Vote) :=
  (dictGet st.votes pid).map (fun tbl =>
    (dictGet tbl agent, (tbl.map Prod.snd).filter (fun w => w.agent_id = agent)))

theorem storedFor_append (pid agent : String) (l1 l2 : List ConsensusEvent) :
    storedFor pid agent (l1 ++ l2) = storedFor pid agent l1 ++ storedFor pid agent l2 := by
  simp [storedFor]

/-- `_check_consensus` never touches the vote table. -/
theorem checkConsensus_votes (st : ConsensusState) (pid : String) :
    (checkConsensus st pid).1.votes = st.votes := by
  unfold checkConsensus updateProposalStatus
  rcases dictGet st.proposals pid with _ | p <;> rcases dictGet st.votes pid with _ | vt <;>
    dsimp only <;> repeat' first | rfl | (split <;> try rfl)

/-- `_check_consensus` emits no `vote_received` event. -/
theorem storedFor_checkConsensus (st : ConsensusState) (pid' pid agent : String) :
    storedFor pid agent (checkConsensus st pid').2 = [] := by
  unfold checkConsensus updateProposalStatus
  rcases dictGet st.proposals pid' with _ | p <;> rcases dictGet st.votes pid' with _ | vt <;>
    dsimp only <;> repeat' first | rfl | (split <;> try rfl)

theorem filter_values_no_key (tbl : List (String × Vote)) (k : String)
    (hmatch : ∀ e ∈ tbl, e.2.agent_id = e.1) (hk : k ∉ tbl.map Prod.fst) :
    (tbl.map Prod.snd).filter (fun w => w.agent_id = k) = [] := by
  induction tbl with
  | nil => simp
  | cons e rest ih =>
    simp only [List.map_cons, List.mem_cons, not_or] at hk
    rw [List.map_cons, List.filter_cons]
    rw [if_neg (by
      simp only [decide_eq_true_eq]
      rw [hmatch e (List.mem_cons_self _ _)]
      exact fun hc => hk.1 hc.symm)]
    exact ih (fun e' he' => hmatch e' (List.mem_cons_of_mem _ he')) hk.2

theorem filter_values_dictSet_self (tbl : List (String × Vote)) (k : String) (v : Vote)
    (hWF : innerWF tbl) (hv : v.agent_id = k) :
    ((dictSet tbl k v).map Prod.snd).filter (fun w => w.agent_id = k) = [v] := by
  induction tbl with
  | nil => simp [dictSet, hv]
  | cons e rest ih =>
    obtain ⟨hnd, hmatch⟩ := hWF
    rw [List.map_cons, List.nodup_cons] at hnd
    by_cases he : e.1 = k
    · rw [show dictSet (e :: rest) k v = (k, v) :: rest by simp [dictSet, he]]
      rw [List.map_cons, List.filter_cons, if_pos (by simp [hv])]
      rw [filter_values_no_key rest k
        (fun e' he' => hmatch e' (List.mem_cons_of_mem _ he')) (he ▸ hnd.1)]
    · rw [show dictSet (e :: rest) k v = e :: dictSet rest k v by simp [dictSet, he]]
      rw [List.map_cons, List.filter_cons]
      rw [if_neg (by
        simp only [decide_eq_true_eq]
        rw [hmatch e (List.mem_cons_self _ _)]
        exact he)]
      exact ih ⟨hnd.2, fun e' he' => hmatch e' (List.mem_cons_of_mem _ he')⟩

theorem filter_values_dictSet_ne (tbl : List (String × Vote)) (k' k : String) (v : Vote)
    (hmatch : ∀ e ∈ tbl, e.2.agent_id = e.1) (hne : k' ≠ k) (hv : v.agent_id = k') :
    ((dictSet tbl k' v).map Prod.snd).filter (fun w => w.agent_id = k) =
      (tbl.map Prod.snd).filter (fun w => w.agent_id = k) := by
  induction tbl with
  | nil => simp [dictSet, hv, hne]
  | cons e rest ih =>
    by_cases he : e.1 = k'
    · rw [show dictSet (e :: rest) k' v = (k', v) :: rest by simp [dictSet, he]]
      rw [List.map_cons, List.map_cons, List.filter_cons, List.filter_cons]
      rw [if_neg (by simp only [decide_eq_true_eq]; rw [hv]; exact hne)]
      rw [if_neg (by
        simp only [decide_eq_true_eq]
        rw [hmatch e (List.mem_cons_self _ _), he]
        exact hne)]
    · rw [show dictSet (e :: rest) k' v = e :: dictSet rest k' v by simp [dictSet, he]]
      rw [List.map_cons, List.map_cons, List.filter_cons, List.filter_cons]
      rw [ih (fun e' he' => hmatch e' (List.mem_cons_of_mem _ he'))]

theorem innerWF_dictSet (tbl : List (String × Vote)) (k : String) (v : Vote)
    (hWF : innerWF tbl) (hv : v.agent_id = k) : innerWF (dictSet tbl k v) := by
  refine ⟨nodupKeys_dictSet tbl k v hWF.1, fun e he => ?_⟩
  rcases mem_dictSet tbl k v e he with h1 | h2
  · rw [h1]
    exact hv
  · exact hWF.2 e h2

/-- The vote record `_handle_vote` builds from a validated message. -/
def mkStoredVote (vid pid agent : String) (vt : VoteType) (now : ℚ) (d : MsgDict) : Vote :=
  { id := vid, proposal_id := pid, agent_id := agent, vote_type := vt,
    timestamp := now, rationale := d.rationale, signature := d.signature }

/-- The engine state right after `self.votes[proposal_id][agent_id] = vote`. -/
def afterStore (st : ConsensusState) (pid agent : String) (tbl : List (String × Vote))
    (v : Vote) : ConsensusState :=
  { st with votes := dictSet st.votes pid (dictSet tbl agent v) }

/-- Helper: the fully-validated path of `_handle_vote` stores the vote, emits
`vote_received`, and runs the quorum check. -/
theorem handleVote_store (st : ConsensusState) (m : Message) (d : MsgDict)
    (pid agent vts : String) (vt : VoteType) (p : Proposal) (tbl : List (String × Vote))
    (now : ℚ) (vid : String)
    (hpl : m.payload = some d) (hpid : d.proposal_id = some pid)
    (hag : pyOr d.agent_id m.sender_id = some agent) (hvt : d.vote_type = some vts)
    (hne : ¬ (pid = "" ∨ agent = "" ∨ vts = ""))
    (hp : dictGet st.proposals pid = some p) (hst : ¬ (p.status ≠ ProposalStatus.voting))
    (hparse : parseVoteType vts = some vt) (htbl : dictGet st.votes pid = some tbl) :
    handleVote st m now vid =
      ((checkConsensus (afterStore st pid agent tbl (mkStoredVote vid pid agent vt now d)) pid).1,
       ConsensusEvent.voteReceived (mkStoredVote vid pid agent vt now d) ::
        (checkConsensus (afterStore st pid agent tbl (mkStoredVote vid pid agent vt now d)) pid).2) := by
  unfold handleVote
  rw [hpl]
  dsimp only
  rw [hpid, hag, hvt]
  dsimp only
  rw [if_neg hne, hp]
  dsimp only
  rw [if_neg hst, hparse]
  dsimp only
  rw [htbl]
  rfl

/-- The state/event pair produced by the store path of `_handle_vote`. -/
def storeResult (st : ConsensusState) (pid' agent' : String) (tbl : List (String × Vote))
    (v : Vote) : ConsensusState × List ConsensusEvent :=
  ((checkConsensus (afterStore st pid' agent' tbl v) pid').1,
   ConsensusEvent.voteReceived v :: (checkConsensus (afterStore st pid' agent' tbl v) pid').2)

/-- View of the store path: the stored vote becomes the unique counted vote for
its `(proposal, agent)` pair; every other pair's record is untouched. -/
theorem storeResult_view (st : ConsensusState) (pid' agent' pid agent : String)
    (tbl : List (String × Vote)) (v : Vote)
    (hWF : votesWF st) (htbl : dictGet st.votes pid' = some tbl)
    (hvp : v.proposal_id = pid') (hva : v.agent_id = agent') :
    votesWF (storeResult st pid' agent' tbl v).1 ∧
    ((storedFor pid agent (storeResult st pid' agent' tbl v).2 = [] ∧
      agentView (storeResult st pid' agent' tbl v).1 pid agent = agentView st pid agent) ∨
     (∃ w, storedFor pid agent (storeResult st pid' agent' tbl v).2 = [w] ∧
       agentView (storeResult st pid' agent' tbl v).1 pid agent = some (some w, [w]))) := by
  have hWFtbl : innerWF tbl := hWF pid' tbl htbl
  have hWF1 : votesWF (afterStore st pid' agent' tbl v) := by
    intro p2 tbl2 h2
    unfold afterStore at h2
    dsimp only at h2
    by_cases hp2 : p2 = pid'
    · subst hp2
      rw [dictGet_dictSet_self] at h2
      cases h2
      exact innerWF_dictSet tbl agent' v hWFtbl hva
    · rw [dictGet_dictSet_ne _ _ _ _ hp2] at h2
      exact hWF p2 tbl2 h2
  have hWFr : votesWF (storeResult st pid' agent' tbl v).1 := by
    intro p2 tbl2 h2
    unfold storeResult at h2
    dsimp only at h2
    rw [checkConsensus_votes] at h2
    exact hWF1 p2 tbl2 h2
  have hvotes1 : (storeResult st pid' agent' tbl v).1.votes =
      dictSet st.votes pid' (dictSet tbl agent' v) := by
    unfold storeResult
    dsimp only
    rw [checkConsensus_votes]
    rfl
  have hst0 : storedFor pid agent (storeResult st pid' agent' tbl v).2 =
      (if pid' = pid ∧ agent' = agent then [v] else []) := by
    unfold storeResult
    dsimp only
    have htail := storedFor_checkConsensus (afterStore st pid' agent' tbl v) pid' pid agent
    unfold storedFor at htail ⊢
    rw [List.filterMap_cons]
    dsimp only
    rw [htail, hvp, hva]
    by_cases hc : pid' = pid ∧ agent' = agent
    · rw [if_pos hc, if_pos hc]
    · rw [if_neg hc, if_neg hc]
  refine ⟨hWFr, ?_⟩
  by_cases hca : pid' = pid ∧ agent' = agent
  · right
    refine ⟨v, by rw [hst0, if_pos hca], ?_⟩
    obtain ⟨hcp, hcag⟩ := hca
    subst hcp
    subst hcag
    unfold agentView
    rw [hvotes1, dictGet_dictSet_self]
    simp only [Option.map_some']
    rw [dictGet_dictSet_self]
    rw [filter_values_dictSet_self tbl agent' v hWFtbl hva]
  · left
    refine ⟨by rw [hst0, if_neg hca], ?_⟩
    unfold agentView
    rw [hvotes1]
    by_cases hpp : pid' = pid
    · subst hpp
      have hag2 : agent' ≠ agent := fun hcon => hca ⟨rfl, hcon⟩
      rw [dictGet_dictSet_self, htbl]
      simp only [Option.map_some']
      rw [dictGet_dictSet_ne tbl agent' agent v (fun hcon => hag2 hcon.symm)]
      rw [filter_values_dictSet_ne tbl agent' agent v hWFtbl.2 hag2 hva]
    · rw [dictGet_dictSet_ne _ _ _ _ (fun hcon => hpp hcon.symm)]

/-- Step lemma: processing one vote message either stores nothing for
`(pid, agent)` and keeps its record intact, or stores exactly one vote `v`
which becomes the unique counted vote for that pair; well-formedness of the
vote table is preserved. -/
theorem handleVote_view (st : ConsensusState) (m : Message) (now : ℚ) (vid : String)
    (pid agent : String) (hWF : votesWF st) :
    votesWF (handleVote st m now vid).1 ∧
    ((storedFor pid agent (handleVote st m now vid).2 = [] ∧
      agentView (handleVote st m now vid).1 pid agent = agentView st pid agent) ∨
     (∃ v, storedFor pid agent (handleVote st m now vid).2 = [v] ∧
       agentView (handleVote st m now vid).1 pid agent = some (some v, [v]))) := by
  have htriv : ∀ st' : ConsensusState, st' = st →
      votesWF (st', ([] : List ConsensusEvent)).1 ∧
      ((storedFor pid agent (st', ([] : List ConsensusEvent)).2 = [] ∧
        agentView (st', ([] : List ConsensusEvent)).1 pid agent = agentView st pid agent) ∨
       (∃ v, storedFor pid agent (st', ([] : List ConsensusEvent)).2 = [v] ∧
         agentView (st', ([] : List ConsensusEvent)).1 pid agent = some (some v, [v]))) := by
    intro st' h
    subst h
    exact ⟨hWF, Or.inl ⟨rfl, rfl⟩⟩
  unfold handleVote
  cases hpl : m.payload with
  | none => exact htriv st rfl
  | some d =>
    dsimp only
    cases hpid : d.proposal_id with
    | none => exact htriv st rfl
    | some pid' =>
      cases hag : pyOr d.agent_id m.sender_id with
      | none =>
        cases hvt : d.vote_type <;> exact htriv st rfl
      | some agent' =>
        cases hvt : d.vote_type with
        | none => exact htriv st rfl
        | some vts =>
          dsimp only
          by_cases hempty : pid' = "" ∨ agent' = "" ∨ vts = ""
          · rw [if_pos hempty]
            exact htriv st rfl
          · rw [if_neg hempty]
            cases hprop : dictGet st.proposals pid' with
            | none => exact htriv st rfl
            | some p =>
              dsimp only
              by_cases hstat : p.status ≠ ProposalStatus.voting
              · rw [if_pos hstat]
                exact htriv st rfl
              · rw [if_neg hstat]
                cases hparse : parseVoteType vts with
                | none => exact htriv st rfl
                | some vt =>
                  cases htbl : dictGet st.votes pid' with
                  | none => exact htriv st rfl
                  | some tbl =>
                    dsimp only
                    exact storeResult_view st pid' agent' pid agent tbl
                      (mkStoredVote vid pid' agent' vt now d) hWF htbl rfl rfl

/-- Induction over a vote-message stream: the record for `(pid, agent)` after
processing equals the last vote the engine stored for that pair (or the
original record when none was stored). -/
theorem processVotes_view (msgs : List (Message × ℚ × String)) :
    ∀ st : ConsensusState, votesWF st → ∀ pid agent : String,
      votesWF (processVotes st msgs).1 ∧
      (storedFor pid agent (processVotes st msgs).2 = [] →
        agentView (processVotes st msgs).1 pid agent = agentView st pid agent) ∧
      (∀ v, (storedFor pid agent (processVotes st msgs).2).getLast? = some v →
        agentView (processVotes st msgs).1 pid agent = some (some v, [v])) := by
  induction msgs with
  | nil =>
    intro st hWF pid agent
    refine ⟨hWF, fun _ => rfl, fun v hv => ?_⟩
    simp [processVotes, storedFor] at hv
  | cons x rest ih =>
    intro st hWF pid agent
    obtain ⟨m, t, i⟩ := x
    have hstep := handleVote_view st m t i pid agent hWF
    obtain ⟨hWF1, hcase⟩ := hstep
    obtain ⟨hWFfin, hnil, hlast⟩ := ih (handleVote st m t i).1 hWF1 pid agent
    have hsplit : storedFor pid agent (processVotes st ((m, t, i) :: rest)).2 =
        storedFor pid agent (handleVote st m t i).2 ++
          storedFor pid agent (processVotes (handleVote st m t i).1 rest).2 := by
      rw [show (processVotes st ((m, t, i) :: rest)).2 =
          (handleVote st m t i).2 ++ (processVotes (handleVote st m t i).1 rest).2 from rfl,
        storedFor_append]
    have hst1 : (processVotes st ((m, t, i) :: rest)).1 =
        (processVotes (handleVote st m t i).1 rest).1 := rfl
    refine ⟨by rw [hst1]; exact hWFfin, ?_, ?_⟩
    · intro h0
      rw [hsplit] at h0
      rcases List.append_eq_nil.mp h0 with ⟨h1, h2⟩
      rcases hcase with ⟨hs0, hview⟩ | ⟨v, hs1, _⟩
      · rw [hst1, hnil h2, hview]
      · rw [hs1] at h1
        simp at h1
    · intro v hv
      rw [hsplit] at hv
      rcases hcase with ⟨hs0, hview⟩ | ⟨v0, hs1, hview1⟩
      · rw [hs0, List.nil_append] at hv
        rw [hst1]
        exact hlast v hv
      · rw [hs1] at hv
        cases hrest : storedFor pid agent (processVotes (handleVote st m t i).1 rest).2 with
        | nil =>
          rw [hrest] at hv
          simp at hv
          rw [hst1, hnil hrest, hview1, hv]
        | cons y ys =>
          rw [hrest] at hv
          rw [show [v0] ++ y :: ys = v0 :: y :: ys from rfl] at hv
          rw [List.getLast?_cons_cons] at hv
          rw [hst1]
          exact hlast v (by rw [hrest]; exact hv)

/-- C3.  Vote replacement: for every proposal and agent, after the engine
processes a stream of vote messages of which at least one vote from that agent
on that proposal was valid (stored), exactly one vote from that agent is in
the proposal's vote table and counted by the quorum computation, namely the
latest one received. -/
theorem vote_replacement (st : ConsensusState) (msgs : List (Message × ℚ × String))
    (pid agent : String) (hWF : votesWF st) (v : Vote)
    (hlast : (storedFor pid agent (processVotes st msgs).2).getLast? = some v) :
    ∃ tbl, dictGet (processVotes st msgs).1.votes pid = some tbl ∧
      dictGet tbl agent = some v ∧
      (tbl.map Prod.snd).filter (fun w => w.agent_id = agent) = [v] := by
  have h := (processVotes_view msgs st hWF pid agent).2.2 v hlast
  unfold agentView at h
  cases hg : dictGet (processVotes st msgs).1.votes pid with
  | none =>
    rw [hg] at h
    simp at h
  | some tbl =>
    rw [hg] at h
    simp only [Option.map_some', Option.some.injEq] at h
    exact ⟨tbl, rfl, by rw [show dictGet tbl agent = (dictGet tbl agent,
      (tbl.map Prod.snd).filter (fun w => w.agent_id = agent)).1 from rfl, h],
      by rw [show (tbl.map Prod.snd).filter (fun w => w.agent_id = agent) = (dictGet tbl agent,
        (tbl.map Prod.snd).filter (fun w => w.agent_id = agent)).2 from rfl, h]⟩

theorem processVotes_nil (st : ConsensusState) : processVotes st [] = (st, []) := rfl

theorem processVotes_cons (st : ConsensusState) (m : Message) (t : ℚ) (i : String)
    (rest : List (Message × ℚ × String)) :
    processVotes st ((m, t, i) :: rest) =
      ((processVotes (handleVote st m t i).1 rest).1,
       (handleVote st m t i).2 ++ (processVotes (handleVote st m t i).1 rest).2) := rfl

/-- With default weights, a single APPROVE vote alone reaches quorum
(`1 / 1 ≥ Q` whenever `Q ≤ 1`). -/
theorem checkConsensus_single_approve (st : ConsensusState) (pid : String) (p : Proposal)
    (a : String) (v : Vote)
    (hp : dictGet st.proposals pid = some p) (hstat : p.status = ProposalStatus.voting)
    (hv : dictGet st.votes pid = some [(a, v)]) (hw : st.agent_weights = [])
    (hvt : v.vote_type = VoteType.approve) (hqle : st.quorum_threshold ≤ 1) :
    checkConsensus st pid =
      ({ st with proposals := dictSet st.proposals pid { p with status := ProposalStatus.approved } },
       [ConsensusEvent.statusChanged pid ProposalStatus.voting ProposalStatus.approved,
        ConsensusEvent.quorumReached pid VoteType.approve [v]]) := by
  have htw : totalWeight st.agent_weights [v] = 1 := by
    rw [hw]
    simp [totalWeight, weightOf, dictGet]
  have haw : approveWeight st.agent_weights [v] = 1 := by
    rw [hw]
    simp only [approveWeight, List.filter_cons, List.filter_nil]
    rw [if_pos (by simp [hvt])]
    simp [weightOf, dictGet]
  have h := checkConsensus_approve_branch st pid p [(a, v)] hp hv (by simp)
    (by simp only [List.map_cons, List.map_nil]; rw [htw]; norm_num)
    (by simp only [List.map_cons, List.map_nil]; rw [htw, haw]; simpa using hqle) hstat
  simpa using h

/-- With default weights, a single ABSTAIN vote reaches no quorum
(both ratios are `0 < Q`). -/
theorem checkConsensus_single_abstain (st : ConsensusState) (pid : String) (p : Proposal)
    (a : String) (v : Vote)
    (hp : dictGet st.proposals pid = some p)
    (hv : dictGet st.votes pid = some [(a, v)]) (hw : st.agent_weights = [])
    (hvt : v.vote_type = VoteType.abstain) (hq0 : 0 < st.quorum_threshold) :
    checkConsensus st pid = (st, []) := by
  have htw : totalWeight st.agent_weights [v] = 1 := by
    rw [hw]
    simp [totalWeight, weightOf, dictGet]
  have haw : approveWeight st.agent_weights [v] = 0 := by
    simp only [approveWeight, List.filter_cons, List.filter_nil]
    rw [if_neg (by simp [hvt])]
    simp
  have hrw : rejectWeight st.agent_weights [v] = 0 := by
    simp only [rejectWeight, List.filter_cons, List.filter_nil]
    rw [if_neg (by simp [hvt])]
    simp
  exact checkConsensus_none_branch st pid p [(a, v)] hp hv
    (by simp only [List.map_cons, List.map_nil]; rw [htw, haw]; simpa using hq0)
    (by simp only [List.map_cons, List.map_nil]; rw [htw, hrw]; simpa using hq0)

/-- A well-formed vote message as produced by `cast_vote`. -/
def voteMsg (pid agent vts : String) : Message :=
  { topic := "consensus.vote",
    payload := some { proposal_id := some pid, agent_id := some agent, vote_type := some vts },
    sender_id := some agent }

/-- Fresh engine state holding one VOTING proposal `p` with no votes yet. -/
def stV : ConsensusState :=
  { quorum_threshold := 33 / 50,
    proposals := [("p", pW)],
    votes := [("p", [])],
    agent_weights := [] }

/-- The ABSTAIN vote agent `a1` casts first in the replacement scenario. -/
def vAb1 : Vote :=
  { id := "i1", proposal_id := "p", agent_id := "a1", vote_type := VoteType.abstain,
    timestamp := 1, rationale := none, signature := none }

/-- The APPROVE vote agent `a1` casts second, replacing the first. -/
def vAp2 : Vote :=
  { id := "i2", proposal_id := "p", agent_id := "a1", vote_type := VoteType.approve,
    timestamp := 2, rationale := none, signature := none }

/-- The two-vote stream of the replacement scenario. -/
def msgsC3 : List (Message × ℚ × String) :=
  [(voteMsg "p" "a1" "abstain", 1, "i1"), (voteMsg "p" "a1" "approve", 2, "i2")]

/-- State after storing the ABSTAIN vote. -/
def stV1 : ConsensusState := afterStore stV "p" "a1" [] vAb1

/-- State after the APPROVE vote replaced the ABSTAIN vote and quorum passed. -/
def stV2 : ConsensusState :=
  { quorum_threshold := stV1.quorum_threshold,
    proposals := dictSet stV1.proposals "p" { pW with status := ProposalStatus.approved },
    votes := dictSet stV1.votes "p" (dictSet [("a1", vAb1)] "a1" vAp2),
    agent_weights := stV1.agent_weights }

theorem stV_WF : votesWF stV := by
  intro p2 tbl h
  simp only [stV, dictGet] at h
  by_cases hp : "p" = p2
  · rw [if_pos hp] at h
    cases h
    exact ⟨by simp, by simp⟩
  · rw [if_neg hp] at h
    cases h

theorem handleVote_stV_abstain :
    handleVote stV (voteMsg "p" "a1" "abstain") 1 "i1" =
      (stV1, [ConsensusEvent.voteReceived vAb1]) := by
  rw [handleVote_store stV (voteMsg "p" "a1" "abstain")
    { proposal_id := some "p", agent_id := some "a1", vote_type := some "abstain" }
    "p" "a1" "abstain" VoteType.abstain pW [] 1 "i1" rfl rfl rfl rfl (by simp) rfl
    (by simp [pW]) rfl rfl]
  rw [checkConsensus_single_abstain
    (afterStore stV "p" "a1" [] (mkStoredVote "i1" "p" "a1" VoteType.abstain 1
      { proposal_id := some "p", agent_id := some "a1", vote_type := some "abstain" }))
    "p" pW "a1" vAb1 rfl rfl rfl rfl (by norm_num [stV, afterStore])]
  rfl

theorem handleVote_stV1_approve :
    handleVote stV1 (voteMsg "p" "a1" "approve") 2 "i2" =
      (stV2, [ConsensusEvent.voteReceived vAp2,
              ConsensusEvent.statusChanged "p" ProposalStatus.voting ProposalStatus.approved,
              ConsensusEvent.quorumReached "p" VoteType.approve [vAp2]]) := by
  rw [handleVote_store stV1 (voteMsg "p" "a1" "approve")
    { proposal_id := some "p", agent_id := some "a1", vote_type := some "approve" }
    "p" "a1" "approve" VoteType.approve pW [("a1", vAb1)] 2 "i2" rfl rfl rfl rfl (by simp) rfl
    (by simp [pW]) rfl rfl]
  rw [checkConsensus_single_approve
    (afterStore stV1 "p" "a1" [("a1", vAb1)] (mkStoredVote "i2" "p" "a1" VoteType.approve 2
      { proposal_id := some "p", agent_id := some "a1", vote_type := some "approve" }))
    "p" pW "a1" vAp2 rfl rfl rfl rfl rfl (by norm_num [stV1, stV, afterStore])]
  rfl

theorem processVotes_msgsC3 :
    processVotes stV msgsC3 =
      (stV2, [ConsensusEvent.voteReceived vAb1, ConsensusEvent.voteReceived vAp2,
              ConsensusEvent.statusChanged "p" ProposalStatus.voting ProposalStatus.approved,
              ConsensusEvent.quorumReached "p" VoteType.approve [vAp2]]) := by
  show processVotes stV ((voteMsg "p" "a1" "abstain", 1, "i1") ::
    (voteMsg "p" "a1" "approve", 2, "i2") :: []) = _
  rw [processVotes_cons, handleVote_stV_abstain]
  rw [show ((stV1, [ConsensusEvent.voteReceived vAb1]) :
    ConsensusState × List ConsensusEvent).1 = stV1 from rfl]
  rw [processVotes_cons, handleVote_stV1_approve, processVotes_nil]
  rfl

theorem storedFor_msgsC3 :
    (storedFor "p" "a1" (processVotes stV msgsC3).2).getLast? = some vAp2 := by
  rw [processVotes_msgsC3]
  simp [storedFor, vAb1, vAp2, List.getLast?]

/-- Witness for C3 at a concrete input: agent `a1` votes ABSTAIN then APPROVE
on proposal `p`; the stored and counted vote is the later APPROVE alone. -/
theorem vote_replacement_witness :
    votesWF stV ∧
    (storedFor "p" "a1" (processVotes stV msgsC3).2).getLast? = some vAp2 ∧
    (∃ tbl, dictGet (processVotes stV msgsC3).1.votes "p" = some tbl ∧
      dictGet tbl "a1" = some vAp2 ∧
      (tbl.map Prod.snd).filter (fun w => w.agent_id = "a1") = [vAp2]) :=
  ⟨stV_WF, storedFor_msgsC3,
   vote_replacement stV msgsC3 "p" "a1" stV_WF vAp2 storedFor_msgsC3⟩

/-! ## Claim C2: the five-agent quorum scenario -/

/-- Fresh engine with default threshold and empty tables. -/
def stP0 : ConsensusState :=
  { quorum_threshold := 33 / 50, proposals := [], votes := [], agent_weights := [] }

/-- The proposal message posting proposal `P` (as `create_proposal` publishes it). -/
def pMsgC2 : Message :=
  { topic := "consensus.proposal",
    payload := some { id := some "P", type := some "t", proposer_id := some "a1",
                      content := some "c", status := some "pending", created_at := some 0 },
    sender_id := some "a1" }

/-- Proposal `P` once the engine moved it to VOTING. -/
def pP : Proposal :=
  { id := "P", type := "t", proposer_id := "a1", content := "c",
    status := ProposalStatus.voting, created_at := 0, expires_at := none, metadata := [] }

/-- Engine state right after proposal `P` was posted: VOTING, no votes. -/
def stP : ConsensusState :=
  { quorum_threshold := 33 / 50, proposals := [("P", pP)], votes := [("P", [])],
    agent_weights := [] }

theorem handleProposal_stP0 :
    handleProposal stP0 pMsgC2 0 =
      (stP, [ConsensusEvent.proposalCreated "P" { pP with status := ProposalStatus.pending },
             ConsensusEvent.statusChanged "P" ProposalStatus.pending ProposalStatus.voting]) := rfl

/-- The first APPROVE vote, cast by agent `a1`. -/
def vA1 : Vote :=
  { id := "w1", proposal_id := "P", agent_id := "a1", vote_type := VoteType.approve,
    timestamp := 1, rationale := none, signature := none }

/-- Engine state after the first APPROVE vote: `P` is already APPROVED, since
the quorum denominator is the weight of the cast votes only (1/1 = 1 ≥ 0.66). -/
def stPA : ConsensusState :=
  { quorum_threshold := 33 / 50,
    proposals := dictSet (afterStore stP "P" "a1" [] vA1).proposals "P"
      { pP with status := ProposalStatus.approved },
    votes := (afterStore stP "P" "a1" [] vA1).votes,
    agent_weights := [] }

theorem handleVote_stP_first_approve :
    handleVote stP (voteMsg "P" "a1" "approve") 1 "w1" =
      (stPA, [ConsensusEvent.voteReceived vA1,
              ConsensusEvent.statusChanged "P" ProposalStatus.voting ProposalStatus.approved,
              ConsensusEvent.quorumReached "P" VoteType.approve [vA1]]) := by
  rw [handleVote_store stP (voteMsg "P" "a1" "approve")
    { proposal_id := some "P", agent_id := some "a1", vote_type := some "approve" }
    "P" "a1" "approve" VoteType.approve pP [] 1 "w1" rfl rfl rfl rfl (by simp) rfl
    (by simp [pP]) rfl rfl]
  rw [checkConsensus_single_approve
    (afterStore stP "P" "a1" [] (mkStoredVote "w1" "P" "a1" VoteType.approve 1
      { proposal_id := some "P", agent_id := some "a1", vote_type := some "approve" }))
    "P" pP "a1" vA1 rfl rfl rfl rfl rfl (by norm_num [stP, afterStore])]
  rfl

/-- Every later vote on `P` is discarded: the proposal left VOTING. -/
theorem handleVote_stPA_discard (ag vts : String) (t : ℚ) (i : String) :
    handleVote stPA (voteMsg "P" ag vts) t i = (stPA, []) :=
  handleVote_discards stPA (voteMsg "P" ag vts) t i (Or.inr (Or.inr (Or.inl rfl)))

/-- The first three votes of the claimed scenario: APPROVE, APPROVE, APPROVE. -/
def msgsC2first3 : List (Message × ℚ × String) :=
  [(voteMsg "P" "a1" "approve", 1, "w1"), (voteMsg "P" "a2" "approve", 2, "w2"),
   (voteMsg "P" "a3" "approve", 3, "w3")]

/-- The claimed scenario's full vote stream: three APPROVEs, a REJECT, an
ABSTAIN, then a fourth APPROVE (agent `a5` changing its vote). -/
def msgsC2 : List (Message × ℚ × String) :=
  msgsC2first3 ++
    [(voteMsg "P" "a4" "reject", 4, "w4"), (voteMsg "P" "a5" "abstain", 5, "w5"),
     (voteMsg "P" "a5" "approve", 6, "w6")]

theorem processVotes_msgsC2first3 :
    processVotes stP msgsC2first3 =
      (stPA, [ConsensusEvent.voteReceived vA1,
              ConsensusEvent.statusChanged "P" ProposalStatus.voting ProposalStatus.approved,
              ConsensusEvent.quorumReached "P" VoteType.approve [vA1]]) := by
  show processVotes stP ((voteMsg "P" "a1" "approve", (1 : ℚ), "w1") ::
    (voteMsg "P" "a2" "approve", (2 : ℚ), "w2") ::
    (voteMsg "P" "a3" "approve", (3 : ℚ), "w3") :: []) = _
  rw [processVotes_cons, handleVote_stP_first_approve]
  rw [show ((stPA, [ConsensusEvent.voteReceived vA1,
      ConsensusEvent.statusChanged "P" ProposalStatus.voting ProposalStatus.approved,
      ConsensusEvent.quorumReached "P" VoteType.approve [vA1]]) :
    ConsensusState × List ConsensusEvent).1 = stPA from rfl]
  rw [processVotes_cons, handleVote_stPA_discard]
  rw [show ((stPA, ([] : List ConsensusEvent)) :
    ConsensusState × List ConsensusEvent).1 = stPA from rfl]
  rw [processVotes_cons, handleVote_stPA_discard, processVotes_nil]
  rfl

theorem processVotes_msgsC2 :
    processVotes stP msgsC2 =
      (stPA, [ConsensusEvent.voteReceived vA1,
              ConsensusEvent.statusChanged "P" ProposalStatus.voting ProposalStatus.approved,
              ConsensusEvent.quorumReached "P" VoteType.approve [vA1]]) := by
  show processVotes stP ((voteMsg "P" "a1" "approve", (1 : ℚ), "w1") ::
    (voteMsg "P" "a2" "approve", (2 : ℚ), "w2") ::
    (voteMsg "P" "a3" "approve", (3 : ℚ), "w3") ::
    (voteMsg "P" "a4" "reject", (4 : ℚ), "w4") ::
    (voteMsg "P" "a5" "abstain", (5 : ℚ), "w5") ::
    (voteMsg "P" "a5" "approve", (6 : ℚ), "w6") :: []) = _
  rw [processVotes_cons, handleVote_stP_first_approve]
  rw [show ((stPA, [ConsensusEvent.voteReceived vA1,
      ConsensusEvent.statusChanged "P" ProposalStatus.voting ProposalStatus.approved,
      ConsensusEvent.quorumReached "P" VoteType.approve [vA1]]) :
    ConsensusState × List ConsensusEvent).1 = stPA from rfl]
  rw [processVotes_cons, handleVote_stPA_discard]
  rw [show ((stPA, ([] : List ConsensusEvent)) :
    ConsensusState × List ConsensusEvent).1 = stPA from rfl]
  rw [processVotes_cons, handleVote_stPA_discard]
  rw [show ((stPA, ([] : List ConsensusEvent)) :
    ConsensusState × List ConsensusEvent).1 = stPA from rfl]
  rw [processVotes_cons, handleVote_stPA_discard]
  rw [show ((stPA, ([] : List ConsensusEvent)) :
    ConsensusState × List ConsensusEvent).1 = stPA from rfl]
  rw [processVotes_cons, handleVote_stPA_discard]
  rw [show ((stPA, ([] : List ConsensusEvent)) :
    ConsensusState × List ConsensusEvent).1 = stPA from rfl]
  rw [processVotes_cons, handleVote_stPA_discard, processVotes_nil]
  rfl

/-- C2 (counterexample).  In the claimed scenario the proposal is supposed to
still be VOTING after the third APPROVE (3/5 = 0.60 < 0.66); in fact, because
the quorum denominator is the cast votes only, the very first APPROVE already
approved it, so after three APPROVEs the status is APPROVED, not VOTING. -/
theorem quorum_scenario_refuted :
    (dictGet (processVotes stP msgsC2first3).1.proposals "P").map Proposal.status =
      some ProposalStatus.approved ∧
    ¬ ((dictGet (processVotes stP msgsC2first3).1.proposals "P").map Proposal.status =
      some ProposalStatus.voting) := by
  rw [processVotes_msgsC2first3]
  exact ⟨rfl, by simp [stPA, afterStore, stP, dictSet, dictGet]⟩

/-- Events that are `quorum_reached`. -/
def isQuorumEvent : ConsensusEvent → Bool
  | .quorumReached _ _ _ => true
  | _ => false

/-- C2 (amended).  Posting proposal `P` and processing the votes APPROVE,
APPROVE, APPROVE, REJECT, ABSTAIN, APPROVE: the proposal becomes APPROVED
already on the first APPROVE (cast-vote ratio 1/1 ≥ 0.66), every later vote is
discarded because the proposal left VOTING, and `quorum_reached(APPROVE)` is
emitted exactly once over the whole run. -/
theorem quorum_scenario_amended :
    handleProposal stP0 pMsgC2 0 =
      (stP, [ConsensusEvent.proposalCreated "P" { pP with status := ProposalStatus.pending },
             ConsensusEvent.statusChanged "P" ProposalStatus.pending ProposalStatus.voting]) ∧
    handleVote stP (voteMsg "P" "a1" "approve") 1 "w1" =
      (stPA, [ConsensusEvent.voteReceived vA1,
              ConsensusEvent.statusChanged "P" ProposalStatus.voting ProposalStatus.approved,
              ConsensusEvent.quorumReached "P" VoteType.approve [vA1]]) ∧
    (dictGet stPA.proposals "P").map Proposal.status = some ProposalStatus.approved ∧
    processVotes stP msgsC2 =
      (stPA, [ConsensusEvent.voteReceived vA1,
              ConsensusEvent.statusChanged "P" ProposalStatus.voting ProposalStatus.approved,
              ConsensusEvent.quorumReached "P" VoteType.approve [vA1]]) ∧
    ((processVotes stP msgsC2).2.filter isQuorumEvent).length = 1 := by
  refine ⟨handleProposal_stP0, handleVote_stP_first_approve, rfl, processVotes_msgsC2, ?_⟩
  rw [processVotes_msgsC2]
  rfl

/-! ## Ticker (`celaya_python/runtime/ticker.py`) -/

/-- Mutable state of `Ticker`: the interval, topic, epoch counter and running
flag.  `current_epoch` is set to zero only here, in the constructor's model. -/
structure TickerState where
  interval_ms : ℤ
  topic : String
  current_epoch : ℕ
  running : Bool
deriving DecidableEq, Repr

/-- `Ticker.__init__`. -/
def tickerInit (interval_ms : ℤ) (topic : String) : TickerState :=
  { interval_ms := interval_ms, topic := topic, current_epoch := 0, running := false }

/-- The operations the event loop interleaves on a ticker: `start()`, `stop()`
and one iteration of the `_run` loop body (which emits `TickEvent(epoch)` and
increments the epoch only while `_running` holds). -/
inductive TickerOp
  | start
  | stop
  | tick
deriving DecidableEq, Repr

/-- One operation on the ticker; the returned list holds the epochs of the
`TickEvent`s published on the bus by that operation. -/
def tickerStep (s : TickerState) : TickerOp → TickerState × List ℕ
  | .start => if s.running then (s, []) else ({ s with running := true }, [])
  | .stop => if s.running then ({ s with running := false }, []) else (s, [])
  | .tick =>
    if s.running then ({ s with current_epoch := s.current_epoch + 1 }, [s.current_epoch])
    else (s, [])

/-- A whole lifetime of the ticker: the final state and all emitted epochs. -/
def tickerRun : TickerState → List TickerOp → TickerState × List ℕ
  | s, [] => (s, [])
  | s, op :: rest =>
    let r := tickerStep s op
    let r' := tickerRun r.1 rest
    (r'.1, r.2 ++ r'.2)

theorem tickerRun_invariant (ops : List TickerOp) :
    ∀ s : TickerState,
      (tickerRun s ops).2.Pairwise (· < ·) ∧
      (∀ e ∈ (tickerRun s ops).2, s.current_epoch ≤ e) ∧
      s.current_epoch ≤ (tickerRun s ops).1.current_epoch := by
  induction ops with
  | nil =>
    intro s
    exact ⟨by simp [tickerRun], by simp [tickerRun], by simp [tickerRun]⟩
  | cons op rest ih =>
    intro s
    have hsplit : tickerRun s (op :: rest) =
        ((tickerRun (tickerStep s op).1 rest).1,
         (tickerStep s op).2 ++ (tickerRun (tickerStep s op).1 rest).2) := rfl
    rw [hsplit]
    dsimp only
    have hstep : (tickerStep s op).2 = [] ∨
        ((tickerStep s op).2 = [s.current_epoch] ∧
         (tickerStep s op).1.current_epoch = s.current_epoch + 1) := by
      cases op <;> simp only [tickerStep] <;> by_cases hr : s.running = true <;> simp [hr]
    have hmono : s.current_epoch ≤ (tickerStep s op).1.current_epoch := by
      cases op <;> simp only [tickerStep] <;> by_cases hr : s.running = true <;> simp [hr]
    obtain ⟨hpw, hge, hfin⟩ := ih (tickerStep s op).1
    rcases hstep with h0 | ⟨h1, h2⟩
    · rw [h0, List.nil_append]
      exact ⟨hpw, fun e he => le_trans hmono (hge e he), le_trans hmono hfin⟩
    · rw [h1, List.singleton_append]
      refine ⟨?_, ?_, ?_⟩
      · rw [List.pairwise_cons]
        refine ⟨fun e he => ?_, hpw⟩
        have h3 := hge e he
        omega
      · intro e he
        rcases List.mem_cons.mp he with he | he
        · omega
        · have h3 := hge e he
          omega
      · have h3 := hfin
        omega

/-- C10.  The ticker's epoch counter is set to zero only at construction:
`start()` and `stop()` never touch it, so after a stop/start cycle epochs
continue where they left off, and across the ticker's whole lifetime (any
interleaving of start, stop and loop iterations from the constructor state)
the emitted epochs are strictly increasing. -/
theorem ticker_epochs_strictly_increase :
    (∀ s : TickerState, (tickerStep s TickerOp.start).1.current_epoch = s.current_epoch ∧
      (tickerStep s TickerOp.stop).1.current_epoch = s.current_epoch) ∧
    (∀ (interval_ms : ℤ) (topic : String) (ops : List TickerOp),
      (tickerRun (tickerInit interval_ms topic) ops).2.Pairwise (· < ·)) := by
  constructor
  · intro s
    constructor <;> (simp only [tickerStep]; by_cases hr : s.running = true <;> simp [hr])
  · intro interval_ms topic ops
    exact (tickerRun_invariant ops (tickerInit interval_ms topic)).1

/-! ## Orchestrator (`celaya-agents/orchestrator.py`) -/

/-- A `CelayaAgent` as the orchestrator's recovery logic sees it: its stable
name and reputation score.  (Endpoint, history and mailbox fields play no
role in the modelled paths.) -/
structure OAgent where
  name : String
  reputation : ℚ
deriving DecidableEq, Repr

/-- A private-queue delivery (`receive_message(sender, text)` on `recipient`). -/
structure OMsg where
  recipient : String
  sender : String
  text : String
deriving DecidableEq, Repr

/-- The orchestrator state touched by timeout recovery and leader election:
the agent roster (reputations live on the agent objects), the per-agent
timeout counters (a dict initialised with every agent, modelled as a total
function), and the elected leader.  Fields untouched by the modelled paths
(turn queue, interrupt heap, error counters) are omitted. -/
structure OrchState where
  agents : List OAgent
  timeoutCount : String → ℕ
  leader : Option String

/-- `Orchestrator.adjust_reputation`: clamp `reputation + change` into [0, 1].
In Python the single agent object is mutated; with distinct names, updating
the named roster entry is the same thing. -/
def adjustReputation (agents : List OAgent) (name : String) (change : ℚ) : List OAgent :=
  agents.map (fun a =>
    if a.name = name then { a with reputation := max 0 (min 1 (a.reputation + change)) } else a)

/-- Python `max(agents, key=lambda a: a.reputation)`: the first agent whose
reputation no later agent strictly exceeds; `none` on an empty roster (where
Python would raise `ValueError` — the roster is nonempty in practice). -/
def pythonMaxL : List OAgent → Option OAgent
  | [] => none
  | a :: rest => some (rest.foldl (fun b x => if x.reputation > b.reputation then x else b) a)

/-- The notification text `_elect_leader` sends to every non-leader agent. -/
def electionText (name : String) : String :=
  "Due to system issues, " ++ name ++ " has been elected as leader. " ++
    "Please follow their coordination instructions."

/-- `Orchestrator._elect_leader`: a no-op when a leader already exists;
otherwise the highest-reputation agent becomes leader and every other agent
is notified. -/
def electLeader (st : OrchState) : OrchState × List OMsg :=
  match st.leader with
  | some _ => (st, [])
  | none =>
    match pythonMaxL st.agents with
    | none => (st, [])
    | some best =>
      ({ st with leader := some best.name },
       (st.agents.filter (fun ag => ag.name ≠ best.name)).map (fun ag =>
         ⟨ag.name, "Orchestrator", electionText best.name⟩))

/-- The placeholder response substituted on a timeout. -/
def timeoutText (name : String) : String :=
  "[" ++ name ++ " timed out and did not respond in time]"

/-- The `except asyncio.TimeoutError` branch of `Orchestrator.orchestrate`:
increment the agent's timeout counter, drop its reputation by 0.2 (clamped),
substitute the placeholder response, and run leader election once the counter
reaches 3.  Returns (state, response, notifications sent). -/
def handleTimeout (st : OrchState) (name : String) : OrchState × String × List OMsg :=
  let st1 : OrchState :=
    { st with timeoutCount := fun n => if n = name then st.timeoutCount name + 1 else st.timeoutCount n }
  let st2 : OrchState := { st1 with agents := adjustReputation st1.agents name (-(1 / 5)) }
  let response := timeoutText name
  if st2.timeoutCount name ≥ 3 then
    let r := electLeader st2
    (r.1, response, r.2)
  else
    (st2, response, [])

/-- Reputation of the named agent in a roster (first entry with that name). -/
def agentRep : List OAgent → String → Option ℚ
  | [], _ => none
  | a :: rest, name => if a.name = name then some a.reputation else agentRep rest name

theorem pythonMaxL_ge (agents : List OAgent) (best : OAgent)
    (h : pythonMaxL agents = some best) : ∀ a ∈ agents, a.reputation ≤ best.reputation := by
  cases agents with
  | nil => simp [pythonMaxL] at h
  | cons a0 rest =>
    simp only [pythonMaxL, Option.some.injEq] at h
    subst h
    have hstep : ∀ (l : List OAgent) (b : OAgent),
        b.reputation ≤ (l.foldl (fun b x => if x.reputation > b.reputation then x else b) b).reputation ∧
        ∀ a ∈ l, a.reputation ≤ (l.foldl (fun b x => if x.reputation > b.reputation then x else b) b).reputation := by
      intro l
      induction l with
      | nil => intro b; exact ⟨le_refl _, by simp⟩
      | cons x xs ih =>
        intro b
        simp only [List.foldl_cons]
        by_cases hx : x.reputation > b.reputation
        · rw [if_pos hx]
          refine ⟨le_trans (le_of_lt hx) (ih x).1, fun a ha => ?_⟩
          rcases List.mem_cons.mp ha with ha | ha
          · rw [ha]
            exact (ih x).1
          · exact (ih x).2 a ha
        · rw [if_neg hx]
          refine ⟨(ih b).1, fun a ha => ?_⟩
          rcases List.mem_cons.mp ha with ha | ha
          · rw [ha]
            exact le_trans (le_of_not_lt hx) (ih b).1
          · exact (ih b).2 a ha
    intro a ha
    rcases List.mem_cons.mp ha with ha | ha
    · rw [ha]
      exact (hstep rest a0).1
    · exact (hstep rest a0).2 a ha

theorem electLeader_preserves (s : OrchState) :
    (electLeader s).1.timeoutCount = s.timeoutCount ∧ (electLeader s).1.agents = s.agents := by
  unfold electLeader
  rcases s.leader with _ | l
  · rcases pythonMaxL s.agents with _ | best <;> exact ⟨rfl, rfl⟩
  · exact ⟨rfl, rfl⟩

theorem agentRep_adjust (agents : List OAgent) (name : String) (c r : ℚ)
    (h : agentRep agents name = some r) :
    agentRep (adjustReputation agents name c) name = some (max 0 (min 1 (r + c))) := by
  induction agents with
  | nil => simp [agentRep] at h
  | cons a rest ih =>
    by_cases ha : a.name = name
    · rw [show agentRep (a :: rest) name = some a.reputation by simp [agentRep, ha]] at h
      cases h
      simp [adjustReputation, agentRep, ha]
    · rw [show agentRep (a :: rest) name = agentRep rest name by simp [agentRep, ha]] at h
      simp only [adjustReputation, List.map_cons, if_neg ha]
      rw [show agentRep ({ a with reputation := a.reputation } ::
          List.map _ rest) name = agentRep (adjustReputation rest name c) name by
        simp [agentRep, ha, adjustReputation]]
      exact ih h
  
theorem agentRep_mem (agents : List OAgent) (name : String) (r : ℚ)
    (h : agentRep agents name = some r) : agents ≠ [] := by
  cases agents with
  | nil => simp [agentRep] at h
  | cons a rest => simp

theorem pythonMaxL_of_ne_nil (agents : List OAgent) (h : agents ≠ []) :
    ∃ best, pythonMaxL agents = some best := by
  cases agents with
  | nil => exact absurd rfl h
  | cons a rest => exact ⟨_, rfl⟩

/-- The timeout-recovery behaviour as it actually holds of the code: counter
incremented, reputation dropped by 0.2 clamped to [0, 1], placeholder
response substituted; at three or more timeouts leader election runs, which
designates the highest-reputation agent and notifies the others only when no
leader exists yet, and otherwise keeps the existing leader silently. -/
def timeoutClaim (st : OrchState) (name : String) (r : ℚ) : Prop :=
  (handleTimeout st name).1.timeoutCount name = st.timeoutCount name + 1 ∧
  agentRep (handleTimeout st name).1.agents name = some (max 0 (min 1 (r - 1 / 5))) ∧
  (handleTimeout st name).2.1 = timeoutText name ∧
  (st.timeoutCount name + 1 < 3 →
    (handleTimeout st name).1.leader = st.leader ∧ (handleTimeout st name).2.2 = []) ∧
  (3 ≤ st.timeoutCount name + 1 →
    (∀ l, st.leader = some l → (handleTimeout st name).1.leader = some l ∧
      (handleTimeout st name).2.2 = []) ∧
    (st.leader = none →
      ∃ best, pythonMaxL (adjustReputation st.agents name (-(1 / 5))) = some best ∧
        (handleTimeout st name).1.leader = some best.name ∧
        (∀ a ∈ (handleTimeout st name).1.agents, a.reputation ≤ best.reputation) ∧
        (handleTimeout st name).2.2 =
          ((adjustReputation st.agents name (-(1 / 5))).filter
            (fun ag => ag.name ≠ best.name)).map (fun ag =>
              ⟨ag.name, "Orchestrator", electionText best.name⟩)))

/-- The orchestrator state after the bookkeeping of a timeout (counter bump
and reputation penalty), before any election. -/
def afterTimeout (st : OrchState) (name : String) : OrchState :=
  { agents := adjustReputation st.agents name (-(1 / 5)),
    timeoutCount := fun n => if n = name then st.timeoutCount name + 1 else st.timeoutCount n,
    leader := st.leader }

theorem handleTimeout_eq (st : OrchState) (name : String) :
    handleTimeout st name =
      (if 3 ≤ st.timeoutCount name + 1
       then ((electLeader (afterTimeout st name)).1, timeoutText name,
             (electLeader (afterTimeout st name)).2)
       else (afterTimeout st name, timeoutText name, [])) := by
  unfold handleTimeout afterTimeout
  dsimp only
  rw [if_pos (rfl : name = name)]

/-- C8 (amended, proof).  See `timeoutClaim` for the statement. -/
theorem timeout_recovery (st : OrchState) (name : String) (r : ℚ)
    (hnodup : (st.agents.map OAgent.name).Nodup)
    (hrep : agentRep st.agents name = some r) :
    timeoutClaim st name r := by
  have hadj : agentRep (adjustReputation st.agents name (-(1 / 5))) name =
      some (max 0 (min 1 (r - 1 / 5))) := by
    rw [show r - 1 / 5 = r + -(1 / 5) by ring]
    exact agentRep_adjust st.agents name (-(1 / 5)) r hrep
  have hcount : (afterTimeout st name).timeoutCount name = st.timeoutCount name + 1 := by
    simp [afterTimeout]
  have hagents : (afterTimeout st name).agents = adjustReputation st.agents name (-(1 / 5)) := rfl
  have hleader : (afterTimeout st name).leader = st.leader := rfl
  unfold timeoutClaim
  rw [handleTimeout_eq]
  by_cases hc : 3 ≤ st.timeoutCount name + 1
  · rw [if_pos hc]
    dsimp only
    refine ⟨?_, ?_, rfl, ?_, ?_⟩
    · rw [show (electLeader (afterTimeout st name)).1.timeoutCount =
          (afterTimeout st name).timeoutCount from (electLeader_preserves _).1]
      exact hcount
    · rw [show (electLeader (afterTimeout st name)).1.agents =
          (afterTimeout st name).agents from (electLeader_preserves _).2, hagents]
      exact hadj
    · intro hlt
      omega
    · intro _
      constructor
      · intro l hl
        have helect : electLeader (afterTimeout st name) = (afterTimeout st name, []) := by
          unfold electLeader
          rw [show (afterTimeout st name).leader = some l from hleader.trans hl]
        rw [helect]
        exact ⟨hleader.trans hl, rfl⟩
      · intro hl
        have hne : adjustReputation st.agents name (-(1 / 5)) ≠ [] :=
          agentRep_mem _ name _ hadj
        obtain ⟨best, hbest⟩ := pythonMaxL_of_ne_nil _ hne
        have helect : electLeader (afterTimeout st name) =
            ({ afterTimeout st name with leader := some best.name },
             ((adjustReputation st.agents name (-(1 / 5))).filter
               (fun ag => ag.name ≠ best.name)).map (fun ag =>
                 ⟨ag.name, "Orchestrator", electionText best.name⟩)) := by
          unfold electLeader
          rw [show (afterTimeout st name).leader = none from hleader.trans hl]
          rw [show pythonMaxL (afterTimeout st name).agents = some best from
            (congrArg pythonMaxL hagents).trans hbest]
          dsimp only
          rw [hagents]
        rw [helect]
        refine ⟨best, hbest, rfl, ?_, rfl⟩
        intro a ha
        rw [show ({ afterTimeout st name with leader := some best.name } :
          OrchState).agents = adjustReputation st.agents name (-(1 / 5)) from hagents] at ha
        exact pythonMaxL_ge _ best hbest a ha
  · rw [if_neg hc]
    dsimp only
    refine ⟨hcount, ?_, rfl, fun _ => ⟨hleader, rfl⟩, fun hge => absurd hge hc⟩
    rw [hagents]
    exact hadj

/-- Orchestrator state where a leader (`b`) is already elected and agent `a`
(the highest-reputation agent) has timed out twice. -/
def stC8 : OrchState :=
  { agents := [⟨"a", 1⟩, ⟨"b", 1 / 2⟩],
    timeoutCount := fun n => if n = "a" then 2 else 0,
    leader := some "b" }

/-- C8 (counterexample).  Agent `a` reaches its third timeout, yet because a
leader already exists `_elect_leader` returns immediately: the leader stays
`b` even though `a` has strictly the highest reputation (4/5 > 1/2 after the
penalty), and no agent is notified — refuting the claim that reaching three
timeouts designates the highest-reputation agent as leader. -/
theorem timeout_election_refuted :
    stC8.timeoutCount "a" + 1 = 3 ∧
    (handleTimeout stC8 "a").1.leader = some "b" ∧
    (handleTimeout stC8 "a").2.2 = [] ∧
    agentRep (handleTimeout stC8 "a").1.agents "a" = some (4 / 5) ∧
    agentRep (handleTimeout stC8 "a").1.agents "b" = some (1 / 2) ∧
    (1 : ℚ) / 2 < 4 / 5 ∧ ("b" : String) ≠ "a" := by
  have hcond : 3 ≤ stC8.timeoutCount "a" + 1 := by norm_num [stC8]
  have helect : electLeader (afterTimeout stC8 "a") = (afterTimeout stC8 "a", []) := by
    unfold electLeader
    rw [show (afterTimeout stC8 "a").leader = some "b" from rfl]
  have hht : handleTimeout stC8 "a" = (afterTimeout stC8 "a", timeoutText "a", []) := by
    rw [handleTimeout_eq, if_pos hcond, helect]
  refine ⟨rfl, ?_, ?_, ?_, ?_, by norm_num, by decide⟩
  · rw [hht]
    rfl
  · rw [hht]
  · rw [hht]
    simp only [afterTimeout, stC8, adjustReputation, agentRep]
    norm_num
  · rw [hht]
    simp [afterTimeout, stC8, adjustReputation, agentRep]

/-- Orchestrator state used by the C8 witness: one agent, no leader yet, two
timeouts so far. -/
def stC8w : OrchState :=
  { agents := [⟨"a", 1⟩], timeoutCount := fun _ => 2, leader := none }

/-- Witness for C8 (amended) at a concrete input. -/
theorem timeout_recovery_witness :
    (stC8w.agents.map OAgent.name).Nodup ∧
    agentRep stC8w.agents "a" = some 1 ∧
    timeoutClaim stC8w "a" 1 :=
  ⟨by simp [stC8w], rfl, timeout_recovery stC8w "a" 1 (by simp [stC8w]) rfl⟩

/-! ## Orchestrator consensus ballot (`Orchestrator.register_vote`) -/

/-- Python `str.upper()` restricted to ASCII letters (ballot votes are ASCII;
non-ASCII characters, which full Unicode uppercasing may alter, pass through
unchanged here). -/
def pyUpper (s : String) : String :=
  String.mk (s.data.map (fun c =>
    if 97 ≤ c.toNat ∧ c.toNat ≤ 122 then Char.ofNat (c.toNat - 32) else c))

/-- Python `set.add`: sets of agent names are modelled as duplicate-free lists. -/
def setAdd (s : List String) (x : String) : List String :=
  if x ∈ s then s else s ++ [x]

/-- The text `register_vote` broadcasts when the ballot reaches quorum. -/
def consensusResultText (pid : String) : String :=
  "[CONSENSUS RESULT] Proposal approved: " ++ pid

/-- Scheduler-level ballot state: the roster, the per-proposal APPROVE-voter
sets (`consensus_votes`) and the `consensus_in_progress` flag. -/
structure BallotState where
  agents : List String
  consensus_votes : List (String × List String)
  consensus_in_progress : Bool
deriving DecidableEq, Repr

/-- `Orchestrator.register_vote`: unknown proposals are ignored; the agent is
added to the proposal's vote set only when the vote upper-cases to "APPROVE";
the quorum check (`len(set) >= len(agents) * QUORUM`, `QUORUM = 0.66`) then
runs on the current set regardless of the vote's value, clearing
`consensus_in_progress` and notifying every agent when it passes. -/
def registerVote (st : BallotState) (agentName pid vote : String) :
    BallotState × List OMsg :=
  match dictGet st.consensus_votes pid with
  | none => (st, [])
  | some s0 =>
    let s1 := if pyUpper vote = "APPROVE" then setAdd s0 agentName else s0
    let st1 : BallotState :=
      { st with consensus_votes :=
          if pyUpper vote = "APPROVE" then dictSet st.consensus_votes pid s1
          else st.consensus_votes }
    if (s1.length : ℚ) ≥ (st.agents.length : ℚ) * (33 / 50) then
      ({ st1 with consensus_in_progress := false },
       st.agents.map (fun ag => ⟨ag, "Orchestrator", consensusResultText pid⟩))
    else (st1, [])

/-- The ballot behaviour as it actually holds of the code: only votes that
upper-case to "APPROVE" change a vote set; the quorum threshold is taken over
the full roster; every emitted message announces approval (a ballot can never
be rejected); but the quorum check runs for every vote on a known proposal,
so even a REJECT can clear `consensus_in_progress` and re-notify when the
named proposal already has quorum. -/
def registerVoteClaim (st : BallotState) (a pid v : String) : Prop :=
  (dictGet st.consensus_votes pid = none → registerVote st a pid v = (st, [])) ∧
  (∀ s0, dictGet st.consensus_votes pid = some s0 →
    (registerVote st a pid v).1.agents = st.agents ∧
    (registerVote st a pid v).1.consensus_votes =
      (if pyUpper v = "APPROVE" then dictSet st.consensus_votes pid (setAdd s0 a)
       else st.consensus_votes) ∧
    (((((if pyUpper v = "APPROVE" then setAdd s0 a else s0).length : ℚ) ≥
          (st.agents.length : ℚ) * (33 / 50)) →
       (registerVote st a pid v).1.consensus_in_progress = false ∧
       (registerVote st a pid v).2 =
         st.agents.map (fun ag => ⟨ag, "Orchestrator", consensusResultText pid⟩)) ∧
     (¬ ((((if pyUpper v = "APPROVE" then setAdd s0 a else s0).length : ℚ) ≥
          (st.agents.length : ℚ) * (33 / 50))) →
       (registerVote st a pid v).1.consensus_in_progress = st.consensus_in_progress ∧
       (registerVote st a pid v).2 = []))) ∧
  (∀ m ∈ (registerVote st a pid v).2, m.text = consensusResultText pid)

/-- C9 (amended, proof).  See `registerVoteClaim` for the statement. -/
theorem register_vote_approve_only (st : BallotState) (a pid v : String) :
    registerVoteClaim st a pid v := by
  unfold registerVoteClaim registerVote
  cases hg : dictGet st.consensus_votes pid with
  | none =>
    dsimp only
    refine ⟨fun _ => rfl, fun s0 hs => absurd hs (by simp), by simp⟩
  | some s0' =>
    dsimp only
    refine ⟨fun hcon => by simp at hcon, fun s0 hs => ?_, ?_⟩
    · have hs0 : s0 = s0' := by
        rw [Option.some.injEq] at hs
        exact hs.symm
      subst hs0
      by_cases hq : (((if pyUpper v = "APPROVE" then setAdd s0 a else s0).length : ℚ) ≥
          (st.agents.length : ℚ) * (33 / 50))
      · rw [if_pos hq]
        refine ⟨rfl, ?_, fun _ => ⟨rfl, rfl⟩, fun hcon => absurd hq hcon⟩
        by_cases happ : pyUpper v = "APPROVE" <;> simp [happ]
      · rw [if_neg hq]
        refine ⟨rfl, ?_, fun hcon => absurd hcon hq, fun _ => ⟨rfl, rfl⟩⟩
        by_cases happ : pyUpper v = "APPROVE" <;> simp [happ]
    · by_cases hq : (((if pyUpper v = "APPROVE" then setAdd s0' a else s0').length : ℚ) ≥
          (st.agents.length : ℚ) * (33 / 50))
      · rw [if_pos hq]
        intro m hm
        rcases List.mem_map.mp hm with ⟨ag, _, hag⟩
        rw [← hag]
      · rw [if_neg hq]
        simp

/-- Ballot state where proposal `p1` already reached quorum earlier (two of
three agents approved, `2 ≥ 3 × 0.66`) and a second ballot is running
(`consensus_in_progress = true`). -/
def stC9 : BallotState :=
  { agents := ["a", "b", "c"], consensus_votes := [("p1", ["a", "b"])],
    consensus_in_progress := true }

/-- C9 (counterexample).  A REJECT vote on the already-decided proposal `p1`
leaves the vote sets alone but still triggers the quorum block: it clears
`consensus_in_progress` (true became false — a state change) and re-emits the
approval notifications, refuting "REJECT votes are ignored without any state
change". -/
theorem register_vote_refuted :
    pyUpper "REJECT" ≠ "APPROVE" ∧
    stC9.consensus_in_progress = true ∧
    (registerVote stC9 "c" "p1" "REJECT").1.consensus_in_progress = false ∧
    (registerVote stC9 "c" "p1" "REJECT").1.consensus_votes = stC9.consensus_votes ∧
    (registerVote stC9 "c" "p1" "REJECT").2 ≠ [] := by
  have hne : ¬ (pyUpper "REJECT" = "APPROVE") := by decide
  have hrv : registerVote stC9 "c" "p1" "REJECT" =
      ({ stC9 with consensus_in_progress := false },
       stC9.agents.map (fun ag => ⟨ag, "Orchestrator", consensusResultText "p1"⟩)) := by
    unfold registerVote
    rw [show dictGet stC9.consensus_votes "p1" = some ["a", "b"] from rfl]
    dsimp only
    rw [if_neg hne, if_neg hne]
    rw [if_pos (show ((["a", "b"].length : ℚ) ≥ (stC9.agents.length : ℚ) * (33 / 50)) from by
      norm_num [stC9])]
  refine ⟨hne, rfl, ?_, ?_, ?_⟩
  · rw [hrv]
  · rw [hrv]
  · rw [hrv]
    simp [stC9]

/-! ## Keyring (`lyra_os/kernel/keyring.py`) -/

/-- Value of a base64 alphabet character, `none` for any other character
(which `base64.b64decode` silently discards in non-strict mode). -/
def b64Val (c : Char) : Option Nat :=
  if 65 ≤ c.toNat ∧ c.toNat ≤ 90 then some (c.toNat - 65)
  else if 97 ≤ c.toNat ∧ c.toNat ≤ 122 then some (c.toNat - 71)
  else if 48 ≤ c.toNat ∧ c.toNat ≤ 57 then some (c.toNat + 4)
  else if c.toNat = 43 then some 62
  else if c.toNat = 47 then some 63
  else none

/-- Reassemble bytes from 6-bit groups, with a trailing group of two or three
characters yielding one or two bytes. -/
def b64Quads : List Nat → List Nat
  | a :: b :: c :: d :: rest =>
    (a * 4 + b / 16) :: ((b % 16) * 16 + c / 4) :: ((c % 4) * 64 + d) :: b64Quads rest
  | [a, b] => [a * 4 + b / 16]
  | [a, b, c] => [a * 4 + b / 16, (b % 16) * 16 + c / 4]
  | _ => []

/-- Model of Python `base64.b64decode` (default, non-strict mode): characters
outside the alphabet are discarded, `=` counts as padding; the call raises
`binascii.Error` — modelled as `Except.error` — when the data-plus-padding
length is not a multiple of four (`Incorrect padding`) or when the number of
data characters is one more than a multiple of four. -/
def pyB64Decode (s : String) : Except Unit (List Nat) :=
  let ds := s.data.filterMap b64Val
  let pads := (s.data.filter (fun c => c = '=')).length
  if (ds.length + pads) % 4 ≠ 0 then Except.error ()
  else if ds.length % 4 = 1 then Except.error ()
  else Except.ok (b64Quads ds)

/-- Parsed contents of one keystore JSON file (`.get` of the two keys). -/
structure KeyFile where
  public_key : Option String
  private_key : Option String
deriving DecidableEq, Repr

/-- In-memory key cache of `Keyring` (raw 32-byte keys). -/
structure KeyringState where
  public_keys : List (String × List Nat)
  private_keys : List (String × List Nat)
deriving DecidableEq, Repr

/-- `Keyring.load_keypair`: the keystore directory is a map from entity id to
an optional parsed key file (`none` models a missing file at the outer check
and `some none` a file whose `json.load` raised, which the `try` swallows).
Falsy key strings, undecodable base64 and keys that are not 32 bytes
(`from_*_bytes` raises) all yield `None` with no cache change. -/
def loadKeypair (ks : List (String × Option KeyFile)) (st : KeyringState) (eid : String) :
    KeyringState × Option (String × String) :=
  match dictGet ks eid with
  | none => (st, none)
  | some none => (st, none)
  | some (some kf) =>
    match kf.public_key, kf.private_key with
    | some pub, some priv =>
      if pub = "" ∨ priv = "" then (st, none)
      else
        match pyB64Decode priv, pyB64Decode pub with
        | Except.ok privB, Except.ok pubB =>
          if privB.length = 32 ∧ pubB.length = 32 then
            ({ public_keys := dictSet st.public_keys eid pubB,
               private_keys := dictSet st.private_keys eid privB }, some (pub, priv))
          else (st, none)
        | _, _ => (st, none)
    | _, _ => (st, none)

/-- `Keyring.verify`.  `ed` is an oracle for the cryptography library's
`Ed25519PublicKey.verify(signature, data)`: `true` for a valid signature,
`false` when the library raises `InvalidSignature` (which the `try` in the
source converts to `False`).  Crucially, `base64.b64decode(signature_b64)`
runs OUTSIDE that `try`, so its `binascii.Error` propagates to the caller —
modelled as `Except.error`. -/
def pyVerify (ed : List Nat → List Nat → List Nat → Bool)
    (ks : List (String × Option KeyFile)) (st : KeyringState) (eid : String)
    (data : List Nat) (sig_b64 : String) : KeyringState × Except Unit Bool :=
  let loaded :=
    match dictGet st.public_keys eid with
    | some _ => (st, true)
    | none =>
      match loadKeypair ks st eid with
      | (st1, none) => (st1, false)
      | (st1, some _) => (st1, true)
  if loaded.2 = false then (loaded.1, Except.ok false)
  else
    match dictGet loaded.1.public_keys eid with
    | none => (loaded.1, Except.ok false)
    | some pk =>
      match pyB64Decode sig_b64 with
      | Except.error e => (loaded.1, Except.error e)
      | Except.ok sigB => (loaded.1, Except.ok (ed pk sigB data))

/-- Keyring cache holding a 32-byte public key for `alice`. -/
def stK7 : KeyringState :=
  { public_keys := [("alice", List.replicate 32 0)], private_keys := [] }

/-- C7 (failing input).  `verify` does return `false` when no key can be
loaded, and `false` on a signature the library rejects — but it is not total:
with a loaded key and the signature string `"a"` (invalid base64 padding),
`base64.b64decode` raises `binascii.Error` outside the `try`, so `verify`
raises instead of returning a boolean. -/
theorem verify_raises_on_bad_base64 :
    (pyVerify (fun _ _ _ => false) [] stK7 "alice" [] "a").2 = Except.error () ∧
    pyB64Decode "a" = Except.error () ∧
    (pyVerify (fun _ _ _ => false) [] ⟨[], []⟩ "bob" [] "a").2 = Except.ok false ∧
    (pyVerify (fun _ _ _ => false) [] stK7 "alice" [] "aGk=").2 = Except.ok false ∧
    (pyVerify (fun _ _ _ => true) [] stK7 "alice" [] "aGk=").2 = Except.ok true :=
  ⟨rfl, rfl, rfl, rfl, rfl⟩

/-! ## SHA-256 (semantics of Python's `hashlib.sha256(...).hexdigest()`) -/

/-- Right rotation of a 32-bit word held in a `Nat`. -/
def rotr32 (x n : Nat) : Nat := (x / 2 ^ n) + (x % 2 ^ n) * 2 ^ (32 - n)

/-- Logical right shift. -/
def shr32 (x n : Nat) : Nat := x / 2 ^ n

def bigSigma0 (x : Nat) : Nat := Nat.xor (rotr32 x 2) (Nat.xor (rotr32 x 13) (rotr32 x 22))

def bigSigma1 (x : Nat) : Nat := Nat.xor (rotr32 x 6) (Nat.xor (rotr32 x 11) (rotr32 x 25))

def smallSigma0 (x : Nat) : Nat := Nat.xor (rotr32 x 7) (Nat.xor (rotr32 x 18) (shr32 x 3))

def smallSigma1 (x : Nat) : Nat := Nat.xor (rotr32 x 17) (Nat.xor (rotr32 x 19) (shr32 x 10))

def shaCh (e f g : Nat) : Nat := Nat.xor (Nat.land e f) (Nat.land (Nat.xor e 4294967295) g)

def shaMaj (a b c : Nat) : Nat :=
  Nat.xor (Nat.land a b) (Nat.xor (Nat.land a c) (Nat.land b c))

/-- The 64 SHA-256 round constants. -/
def shaK : List Nat :=
  [1116352408, 1899447441, 3049323471, 3921009573, 961987163, 1508970993,
   2453635748, 2870763221, 3624381080, 310598401, 607225278, 1426881987,
   1925078388, 2162078206, 2614888103, 3248222580, 3835390401, 4022224774,
   264347078, 604807628, 770255983, 1249150122, 1555081692, 1996064986,
   2554220882, 2821834349, 2952996808, 3210313671, 3336571891, 3584528711,
   113926993, 338241895, 666307205, 773529912, 1294757372, 1396182291,
   1695183700, 1986661051, 2177026350, 2456956037, 2730485921, 2820302411,
   3259730800, 3345764771, 3516065817, 3600352804, 4094571909, 275423344,
   430227734, 506948616, 659060556, 883997877, 958139571, 1322822218,
   1537002063, 1747873779, 1955562222, 2024104815, 2227730452, 2361852424,
   2428436474, 2756734187, 3204031479, 3329325298]

/-- Big-endian 8-byte encoding of the bit length. -/
def be64 (n : Nat) : List Nat :=
  [n / 2 ^ 56 % 256, n / 2 ^ 48 % 256, n / 2 ^ 40 % 256, n / 2 ^ 32 % 256,
   n / 2 ^ 24 % 256, n / 2 ^ 16 % 256, n / 2 ^ 8 % 256, n % 256]

/-- SHA-256 padding: append `0x80`, zero bytes to 56 mod 64, and the 64-bit
big-endian bit length. -/
def shaPad (msg : List Nat) : List Nat :=
  msg ++ (128 :: List.replicate ((120 - (msg.length + 1) % 64) % 64) 0) ++ be64 (8 * msg.length)

/-- Group bytes into big-endian 32-bit words. -/
def toWords : List Nat → List Nat
  | a :: b :: c :: d :: rest => (((a * 256 + b) * 256 + c) * 256 + d) :: toWords rest
  | _ => []

/-- One message-schedule extension step. -/
def schedStep (w : List Nat) : List Nat :=
  w ++ [(smallSigma1 (w.getD (w.length - 2) 0) + w.getD (w.length - 7) 0 +
         smallSigma0 (w.getD (w.length - 15) 0) + w.getD (w.length - 16) 0) % 4294967296]

/-- Extend the 16-word schedule to 64 words. -/
def sched : Nat → List Nat → List Nat
  | 0, w => w
  | n + 1, w => sched n (schedStep w)

/-- The eight working registers of the compression function. -/
structure Sha256Regs where
  a : Nat
  b : Nat
  c : Nat
  d : Nat
  e : Nat
  f : Nat
  g : Nat
  h : Nat

/-- One compression round. -/
def roundStep (r : Sha256Regs) (kw : Nat × Nat) : Sha256Regs :=
  let t1 := (r.h + bigSigma1 r.e + shaCh r.e r.f r.g + kw.1 + kw.2) % 4294967296
  let t2 := (bigSigma0 r.a + shaMaj r.a r.b r.c) % 4294967296
  ⟨(t1 + t2) % 4294967296, r.a, r.b, r.c, (r.d + t1) % 4294967296, r.e, r.f, r.g⟩

def add32 (a b : Nat) : Nat := (a + b) % 4294967296

/-- Compress one 64-byte block into the running hash state. -/
def compress (hs : List Nat) (block : List Nat) : List Nat :=
  let w := sched 48 (toWords block)
  let init : Sha256Regs :=
    ⟨hs.getD 0 0, hs.getD 1 0, hs.getD 2 0, hs.getD 3 0,
     hs.getD 4 0, hs.getD 5 0, hs.getD 6 0, hs.getD 7 0⟩
  let r := (List.zip shaK w).foldl roundStep init
  [add32 (hs.getD 0 0) r.a, add32 (hs.getD 1 0) r.b, add32 (hs.getD 2 0) r.c,
   add32 (hs.getD 3 0) r.d, add32 (hs.getD 4 0) r.e, add32 (hs.getD 5 0) r.f,
   add32 (hs.getD 6 0) r.g, add32 (hs.getD 7 0) r.h]

/-- The SHA-256 initial hash values. -/
def shaH0 : List Nat :=
  [1779033703, 3144134277, 1013904242, 2773480762,
   1359893119, 2600822924, 528734635, 1541459225]

/-- Fold the compression function over all 64-byte blocks (fuel-driven). -/
def shaBlocks : Nat → List Nat → List Nat → List Nat
  | 0, hs, _ => hs
  | _ + 1, hs, [] => hs
  | fuel + 1, hs, rest => shaBlocks fuel (compress hs (rest.take 64)) (rest.drop 64)

/-- SHA-256 digest (eight 32-bit words) of a byte string. -/
def sha256 (msg : List Nat) : List Nat :=
  shaBlocks (shaPad msg).length shaH0 (shaPad msg)

def hexDigit (n : Nat) : Char := if n < 10 then Char.ofNat (48 + n) else Char.ofNat (87 + n)

def wordHex (w : Nat) : List Char :=
  [hexDigit (w / 2 ^ 28 % 16), hexDigit (w / 2 ^ 24 % 16), hexDigit (w / 2 ^ 20 % 16),
   hexDigit (w / 2 ^ 16 % 16), hexDigit (w / 2 ^ 12 % 16), hexDigit (w / 2 ^ 8 % 16),
   hexDigit (w / 2 ^ 4 % 16), hexDigit (w % 16)]

/-- `hashlib.sha256(bytes).hexdigest()`. -/
def sha256hex (msg : List Nat) : String := String.mk ((sha256 msg).map wordHex).flatten

/-- UTF-8 encoding of one code point. -/
def utf8Char (n : Nat) : List Nat :=
  if n < 128 then [n]
  else if n < 2048 then [192 + n / 64, 128 + n % 64]
  else if n < 65536 then [224 + n / 4096, 128 + n / 64 % 64, 128 + n % 64]
  else [240 + n / 262144, 128 + n / 4096 % 64, 128 + n / 64 % 64, 128 + n % 64]

/-- Python `str.encode()` (UTF-8). -/
def pyEncode (s : String) : List Nat := (s.data.map (fun c => utf8Char c.toNat)).flatten

/-! ## Ledger consensus CID (`lyra_os/kernel/ledger.py`) -/

/-- Python string `<`: lexicographic comparison by code point. -/
def lexLt : List Char → List Char → Bool
  | [], [] => false
  | [], _ :: _ => true
  | _ :: _, [] => false
  | a :: as, b :: bs =>
    if a.toNat < b.toNat then true
    else if b.toNat < a.toNat then false
    else lexLt as bs

/-- Insert a string into an ascending list, before the first element not
below it. -/
def pyInsert (x : String) : List String → List String
  | [] => [x]
  | y :: ys => if lexLt y.data x.data then y :: pyInsert x ys else x :: y :: ys

/-- Python `sorted` on strings: ascending by code-point order.  (Insertion
sort; `sorted` is a stable mergesort, but over a total order whose equal
elements are identical strings the output is the same list.) -/
def pySorted : List String → List String
  | [] => []
  | x :: xs => pyInsert x (pySorted xs)

/-- `Ledger.compute_consensus_cid`: sort the public keys, concatenate, hash
with SHA-256, hex-encode and prefix `"lyra1"`.  (The `trust_score` the source
also derives from the hash is only logged and does not affect the result.) -/
def computeConsensusCid (pubkeys : List String) : String :=
  "lyra1" ++ sha256hex (pyEncode (String.join (pySorted pubkeys)))

theorem char_toNat_inj (a b : Char) (h : a.toNat = b.toNat) : a = b := by
  rw [← Char.ofNat_toNat a, ← Char.ofNat_toNat b, h]

theorem lexLt_asymm : ∀ a b : List Char, lexLt a b = true → lexLt b a = false := by
  intro a
  induction a with
  | nil =>
    intro b hab
    cases b with
    | nil => simp [lexLt] at hab
    | cons y ys => simp [lexLt]
  | cons x xs ih =>
    intro b hab
    cases b with
    | nil => simp [lexLt] at hab
    | cons y ys =>
      simp only [lexLt] at hab ⊢
      by_cases h1 : x.toNat < y.toNat
      · rw [if_neg (show ¬ y.toNat < x.toNat by omega), if_pos h1]
      · by_cases h2 : y.toNat < x.toNat
        · rw [if_neg h1, if_pos h2] at hab
          exact absurd hab (by simp)
        · rw [if_neg h1, if_neg h2] at hab
          rw [if_neg h2, if_neg h1]
          exact ih ys hab

theorem lexLt_conn : ∀ a b : List Char, lexLt a b = false → lexLt b a = false → a = b := by
  intro a
  induction a with
  | nil =>
    intro b hab _
    cases b with
    | nil => rfl
    | cons y ys => simp [lexLt] at hab
  | cons x xs ih =>
    intro b hab hba
    cases b with
    | nil => simp [lexLt] at hba
    | cons y ys =>
      simp only [lexLt] at hab hba
      by_cases h1 : x.toNat < y.toNat
      · rw [if_pos h1] at hab
        exact absurd hab (by simp)
      · by_cases h2 : y.toNat < x.toNat
        · rw [if_pos h2] at hba
          exact absurd hba (by simp)
        · rw [if_neg h1, if_neg h2] at hab
          rw [if_neg h2, if_neg h1] at hba
          have hchar : x = y := char_toNat_inj x y (by omega)
          rw [hchar, ih ys hab hba]

theorem lexLt_false_trans : ∀ a b c : List Char,
    lexLt b a = false → lexLt c b = false → lexLt c a = false := by
  intro a
  induction a with
  | nil =>
    intro b c _ _
    cases c with
    | nil => rfl
    | cons z zs => rfl
  | cons x xs ih =>
    intro b c hba hcb
    cases b with
    | nil => simp [lexLt] at hba
    | cons y ys =>
      cases c with
      | nil => simp [lexLt] at hcb
      | cons z zs =>
        simp only [lexLt] at hba hcb ⊢
        by_cases hyx : y.toNat < x.toNat
        · rw [if_pos hyx] at hba
          exact absurd hba (by simp)
        · by_cases hzy : z.toNat < y.toNat
          · rw [if_pos hzy] at hcb
            exact absurd hcb (by simp)
          · rw [if_neg (show ¬ z.toNat < x.toNat by omega)]
            by_cases hxz : x.toNat < z.toNat
            · rw [if_pos hxz]
            · rw [if_neg hxz]
              rw [if_neg hyx, if_neg (by omega)] at hba
              rw [if_neg hzy, if_neg (by omega)] at hcb
              exact ih ys zs hba hcb

/-- Non-strict order on strings: `a` is not above `b` in code-point order. -/
def strLeR (a b : String) : Prop := lexLt b.data a.data = false

theorem pyInsert_perm (x : String) : ∀ l : List String, (pyInsert x l).Perm (x :: l) := by
  intro l
  induction l with
  | nil => exact List.Perm.refl _
  | cons y ys ih =>
    by_cases h : lexLt y.data x.data = true
    · rw [show pyInsert x (y :: ys) = y :: pyInsert x ys from by simp [pyInsert, h]]
      exact List.Perm.trans (List.Perm.cons y ih) (List.Perm.swap x y ys)
    · rw [show pyInsert x (y :: ys) = x :: y :: ys from by simp [pyInsert, h]]

theorem pySorted_perm : ∀ l : List String, (pySorted l).Perm l := by
  intro l
  induction l with
  | nil => exact List.Perm.refl _
  | cons x xs ih =>
    exact List.Perm.trans (pyInsert_perm x (pySorted xs)) (List.Perm.cons x ih)

theorem pairwise_pyInsert (x : String) :
    ∀ l : List String, l.Pairwise strLeR → (pyInsert x l).Pairwise strLeR := by
  intro l
  induction l with
  | nil =>
    intro _
    simp [pyInsert]
  | cons y ys ih =>
    intro h
    rw [List.pairwise_cons] at h
    obtain ⟨hy, hys⟩ := h
    by_cases hcmp : lexLt y.data x.data = true
    · rw [show pyInsert x (y :: ys) = y :: pyInsert x ys from by simp [pyInsert, hcmp]]
      rw [List.pairwise_cons]
      refine ⟨fun z hz => ?_, ih hys⟩
      rw [(pyInsert_perm x ys).mem_iff] at hz
      rcases List.mem_cons.mp hz with hz | hz
      · rw [hz]
        exact lexLt_asymm y.data x.data hcmp
      · exact hy z hz
    · have hxy : strLeR x y := by
        simp only [Bool.not_eq_true] at hcmp
        exact hcmp
      rw [show pyInsert x (y :: ys) = x :: y :: ys from by simp [pyInsert, hcmp]]
      rw [List.pairwise_cons]
      refine ⟨fun z hz => ?_, List.pairwise_cons.mpr ⟨hy, hys⟩⟩
      rcases List.mem_cons.mp hz with hz | hz
      · rw [hz]
        exact hxy
      · exact lexLt_false_trans x.data y.data z.data hxy (hy z hz)

theorem pairwise_pySorted : ∀ l : List String, (pySorted l).Pairwise strLeR := by
  intro l
  induction l with
  | nil => simp [pySorted]
  | cons x xs ih => exact pairwise_pyInsert x (pySorted xs) ih

theorem string_data_inj (a b : String) (h : a.data = b.data) : a = b := by
  cases a
  cases b
  exact congrArg String.mk h

/-- Lists that are permutations of one another sort to the same list (the
CID-determinism core: sorting is invariant under reordering). -/
theorem pySorted_eq_of_perm (P P' : List String) (h : P.Perm P') :
    pySorted P = pySorted P' := by
  haveI : IsAntisymm String strLeR :=
    ⟨fun a b hab hba => string_data_inj a b (lexLt_conn a.data b.data hba hab)⟩
  exact List.eq_of_perm_of_sorted
    (List.Perm.trans (pySorted_perm P) (List.Perm.trans h (pySorted_perm P').symm))
    (pairwise_pySorted P) (pairwise_pySorted P')

/-- C6 (counterexample).  `["a", "a"]` and `["a"]` are equal as sets, yet
their consensus CIDs differ: `compute_consensus_cid` does not deduplicate, so
it hashes `"aa"` against `"a"`.  Set-equality determinism fails. -/
theorem consensus_cid_set_refuted :
    (∀ x, x ∈ (["a", "a"] : List String) ↔ x ∈ (["a"] : List String)) ∧
    computeConsensusCid ["a", "a"] ≠ computeConsensusCid ["a"] := by
  refine ⟨fun x => by simp, ?_⟩
  decide

/-- C6 (amended).  `compute_consensus_cid` equals `"lyra1"` followed by the
hex SHA-256 of the concatenation of the lexicographically sorted keys, and it
is invariant under reordering of the key list (equality as multisets rather
than as sets). -/
theorem consensus_cid_algorithm (P P' : List String) (h : P.Perm P') :
    computeConsensusCid P = "lyra1" ++ sha256hex (pyEncode (String.join (pySorted P))) ∧
    computeConsensusCid P = computeConsensusCid P' := by
  refine ⟨rfl, ?_⟩
  unfold computeConsensusCid
  rw [pySorted_eq_of_perm P P' h]

/-- Witness for C6 (amended) at a concrete input. -/
theorem consensus_cid_algorithm_witness :
    (["b", "a"] : List String).Perm ["a", "b"] ∧
    (computeConsensusCid ["b", "a"] =
      "lyra1" ++ sha256hex (pyEncode (String.join (pySorted ["b", "a"]))) ∧
     computeConsensusCid ["b", "a"] = computeConsensusCid ["a", "b"]) :=
  ⟨List.Perm.swap "a" "b" [],
   consensus_cid_algorithm ["b", "a"] ["a", "b"] (List.Perm.swap "a" "b" [])⟩

example : sha256hex (pyEncode "abc") =
    "ba7816bf8f01cfea414140de5dae2223b00361a396177a9cb410ff61f20015ad" := by decide

example : sha256hex (pyEncode "") =
    "e3b0c44298fc1c149afbf4c8996fb92427ae41e4649b934ca495991b7852b855" := by decide

example : computeConsensusCid ["a", "a"] =
    "lyra1961b6dd3ede3cb8ecbaacbd68de040cd78eb2ed5889130cceb4c49268ea4d506" := by decide

example : computeConsensusCid ["a"] =
    "lyra1ca978112ca1bbdcafac231b39a23dc4da786eff8147c4e72b9807785afee48bb" := by decide

example : pyB64Decode "aGk=" = Except.ok [104, 105] := rfl
